import Mathlib

/-!
Verification of the nebula repository's natural-language specification
against a shallow embedding of its two subsystems:

* the Browser-Session Broker (`src/browser-sessions/server.js`): slot pool,
  two-token access control, HTTP/WebSocket access checks, release logic;
* the URL-Rewriting Proxy (`src/unnamed/part_000`): the `__cpo` URL codec,
  the redirect-following fetcher, the CSS rewriter and the localhost-target
  resolution of the request router.

JavaScript `Map`s are modelled as insertion-ordered association lists,
strings as Lean `String`s (or as lists of bytes where the code manipulates
raw bytes), and the event-loop interleaving as explicit operation traces.
Random token generation (`crypto.randomBytes`) is modelled by passing the
freshly drawn token as an explicit parameter of each operation.
-/

set_option autoImplicit false
set_option maxRecDepth 100000

namespace Nebula

/-- Prefix test on strings (`String.prototype.startsWith`), via the character
lists so that it evaluates by kernel reduction. -/
def strStartsWith (s pre : String) : Bool :=
  decide (s.toList.take pre.toList.length = pre.toList)

/-- Lookup in a JS `Map` modelled as an insertion-ordered association list
(`Map.prototype.get`). -/
def mapGet {α β : Type} [DecidableEq α] (m : List (α × β)) (k : α) : Option β :=
  (m.find? (fun p => decide (p.1 = k))).map (fun p => p.2)

/-- Insertion for a JS `Map` (`Map.prototype.set`): replace the value at an
existing key in place, otherwise append at the end. -/
def mapSet {α β : Type} [DecidableEq α] : List (α × β) → α → β → List (α × β)
  | [], k, v => [(k, v)]
  | p :: rest, k, v => if p.1 = k then (k, v) :: rest else p :: mapSet rest k v

/-- Deletion for a JS `Map` (`Map.prototype.delete`). -/
def mapDel {α β : Type} [DecidableEq α] (m : List (α × β)) (k : α) : List (α × β) :=
  m.filter (fun p => decide (p.1 ≠ k))

/-! ## Browser-Session Broker data model (`src/browser-sessions/server.js`) -/

/-- Entry of the `urlTokens` map: `urlToken -> \x7b browserId, cookieToken, createdAt \x7d`
(server.js line 309). -/
structure TokenEntry where
  browserId : Nat
  cookieToken : String
  createdAt : Nat
deriving DecidableEq

/-- Entry of the `sessions` map: `sessionId -> \x7b browserId, clientId, createdAt,
lastActivity \x7d` (server.js line 291). -/
structure SessionRec where
  browserId : Nat
  clientId : String
  createdAt : Nat
  lastActivity : Nat
deriving DecidableEq

/-- One element of the `BROWSERS` pool (server.js lines 240-251).  The liveness
and ownership fields are mutated by assignment and release. -/
structure Browser where
  id : Nat
  host : String
  port : Nat
  audioPort : Nat
  inUse : Bool
  lastUsed : Option Nat
  lastHeartbeat : Option Nat
  userId : Option String
  sessionId : Option String
  clientId : Option String
deriving DecidableEq

/-- Entry of `activeConnections`: `browserId -> \x7b count, lastDisconnect \x7d`
(server.js line 297). -/
structure ConnInfo where
  count : Nat
  lastDisconnect : Option Nat
deriving DecidableEq

/-- What `syncBrowserToFirebase` writes at `nebula/browsers/state/<id>`
(server.js lines 51-65): the state-mirror record of one slot. -/
structure MirrorEntry where
  inUse : Bool
  clientId : Option String
  sessionId : Option String
  lastUsed : Option Nat
  lastHeartbeat : Option Nat
deriving DecidableEq

/-- The process-wide mutable state of the session broker: the slot pool and
the maps declared at server.js lines 240-251, 291, 294, 297, 307-309, plus the
external state mirror (Firebase), modelled as one more map. -/
structure ServerState where
  browsers : List Browser
  sessions : List (String × SessionRec)
  clientSessions : List (String × Nat)
  browserTokens : List (Nat × String)
  tokenToBrowser : List (String × Nat)
  urlTokens : List (String × TokenEntry)
  activeConnections : List (Nat × ConnInfo)
  mirror : List (Nat × MirrorEntry)
deriving DecidableEq

/-- Source: `getBrowserById` (server.js line 572): `BROWSERS.find(b => b.id === id)`. -/
def getBrowserById (s : ServerState) (id : Nat) : Option Browser :=
  s.browsers.find? (fun b => decide (b.id = id))

/-- Source: `findAvailableBrowser` (server.js line 467): `BROWSERS.find(b => !b.inUse)`. -/
def findAvailableBrowser (s : ServerState) : Option Browser :=
  s.browsers.find? (fun b => !b.inUse)

/-- In-place mutation of the browser object with the given id (JS mutates the
array element through the object reference). -/
def updateBrowser (s : ServerState) (id : Nat) (f : Browser → Browser) : ServerState :=
  { s with browsers := s.browsers.map (fun b => if b.id = id then f b else b) }

/-- Source: `syncBrowserToFirebase` (server.js lines 51-65).  Writes the slot's
current fields to the state mirror.  Mirror write failures are ignored by the
code; the model records the successful write. -/
def syncBrowserToFirebase (s : ServerState) (id : Nat) : ServerState :=
  match getBrowserById s id with
  | none => s
  | some b =>
    { s with mirror :=
        (mapSet s.mirror id
          (MirrorEntry.mk b.inUse b.clientId b.sessionId b.lastUsed b.lastHeartbeat)) }

/-- Source: `createSessionTokens` (server.js lines 317-330).  The two freshly
drawn random tokens are passed as parameters `cookieToken`, `urlToken`. -/
def createSessionTokens (s : ServerState) (browserId : Nat)
    (cookieToken urlToken : String) (now : Nat) : ServerState :=
  let s1 :=
    match mapGet s.browserTokens browserId with
    | some oldCookieToken =>
      { s with tokenToBrowser := mapDel s.tokenToBrowser oldCookieToken }
    | none => s
  { s1 with
      browserTokens := mapSet s1.browserTokens browserId cookieToken,
      tokenToBrowser := mapSet s1.tokenToBrowser cookieToken browserId,
      urlTokens := mapSet s1.urlTokens urlToken ⟨browserId, cookieToken, now⟩ }

/-- Source: `createUrlToken` (server.js lines 333-339).  Mints a fresh one-time
URL token for an existing session; returns `none` when the browser has no
cookie token. -/
def createUrlToken (s : ServerState) (browserId : Nat) (urlToken : String)
    (now : Nat) : Option String × ServerState :=
  match mapGet s.browserTokens browserId with
  | none => (none, s)
  | some cookieToken =>
    (some urlToken,
     { s with urlTokens := mapSet s.urlTokens urlToken ⟨browserId, cookieToken, now⟩ })

/-- Source: `validateBrowserAccess` (server.js lines 342-348).  `cookieSession`
is the parsed `nebula_session` cookie of the request (`none` when the cookie is
absent or empty, which JS treats as falsy). -/
def validateBrowserAccess (s : ServerState) (cookieSession : Option String)
    (browserId : Nat) : Bool :=
  match cookieSession with
  | none => false
  | some token => decide (mapGet s.tokenToBrowser token = some browserId)

/-- Source: `cleanupUrlTokens` (server.js lines 351-358): delete every URL token
older than 5 minutes. -/
def cleanupUrlTokens (s : ServerState) (now : Nat) : ServerState :=
  { s with urlTokens :=
      s.urlTokens.filter (fun p => !decide (now - p.2.createdAt > 5 * 60 * 1000)) }

/-- The `for..of` loop of `doReleaseBrowser` (server.js lines 372-377): delete
the FIRST session record whose `browserId` matches, then `break`. -/
def deleteFirstSessionFor (browserId : Nat) :
    List (String × SessionRec) → List (String × SessionRec)
  | [] => []
  | p :: rest =>
    if p.2.browserId = browserId then rest
    else p :: deleteFirstSessionFor browserId rest

/-- Source: `doReleaseBrowser` (server.js lines 366-404).  Removes one session
record, the client mapping, both token maps and all URL tokens of the slot,
zeroes the slot's fields, drops its connection tracking and writes the mirror
tombstone. -/
def doReleaseBrowser (s : ServerState) (browserId : Nat) : ServerState :=
  match getBrowserById s browserId with
  | none => s
  | some b =>
    if !b.inUse then s
    else
      let s1 := { s with sessions := deleteFirstSessionFor b.id s.sessions }
      let s2 :=
        match b.clientId with
        | some cid => { s1 with clientSessions := mapDel s1.clientSessions cid }
        | none => s1
      let s3 :=
        match mapGet s2.browserTokens b.id with
        | some oldToken =>
          { s2 with
              tokenToBrowser := mapDel s2.tokenToBrowser oldToken,
              browserTokens := mapDel s2.browserTokens b.id }
        | none => s2
      let s4 := { s3 with
        urlTokens := s3.urlTokens.filter (fun p => !decide (p.2.browserId = b.id)) }
      let s5 := updateBrowser s4 b.id (fun br =>
        { br with inUse := false, userId := none, sessionId := none,
                  clientId := none, lastHeartbeat := none })
      let s6 := { s5 with activeConnections := mapDel s5.activeConnections b.id }
      syncBrowserToFirebase s6 b.id

/-- Source: `findBrowserByClientId` (server.js lines 472-483).  Returns the
client's live browser; a stale `clientSessions` entry is deleted as a side
effect, so the (possibly updated) state is returned too. -/
def findBrowserByClientId (s : ServerState) (clientId : String) :
    Option Browser × ServerState :=
  match mapGet s.clientSessions clientId with
  | none => (none, s)
  | some browserId =>
    match getBrowserById s browserId with
    | some b =>
      if b.inUse ∧ b.clientId = some clientId then (some b, s)
      else (none, { s with clientSessions := mapDel s.clientSessions clientId })
    | none => (none, { s with clientSessions := mapDel s.clientSessions clientId })

/-- Result record of `assignBrowser` (server.js lines 510 and 542):
`\x7b browser, existing, cookieToken, urlToken \x7d` with the browser
represented by its id. -/
structure AssignResult where
  browserId : Nat
  existing : Bool
  cookieToken : String
  urlToken : Option String
deriving DecidableEq

/-- Source: `assignBrowser` (server.js lines 486-543).  `freshCk` and `freshUt`
are the random tokens drawn inside the call (`generateSecureToken`), `now` is
`Date.now()`.  Returns `none` exactly when the client has no live browser and
no slot is free. -/
def assignBrowser (s : ServerState) (sessionId clientId : String)
    (freshCk freshUt : String) (now : Nat) : Option AssignResult × ServerState :=
  match findBrowserByClientId s clientId with
  | (some existing, sA) =>
    let s1 := updateBrowser sA existing.id (fun br => { br with lastHeartbeat := some now })
    let s2 := { s1 with sessions :=
        (mapSet s1.sessions sessionId (SessionRec.mk existing.id clientId now now)) }
    let s3 := syncBrowserToFirebase s2 existing.id
    let (ck, s4) :=
      match mapGet s3.browserTokens existing.id with
      | some cookieToken => (cookieToken, s3)
      | none =>
        (freshCk,
         { s3 with
             browserTokens := mapSet s3.browserTokens existing.id freshCk,
             tokenToBrowser := mapSet s3.tokenToBrowser freshCk existing.id })
    let (ut, s5) := createUrlToken s4 existing.id freshUt now
    (some ⟨existing.id, true, ck, ut⟩, s5)
  | (none, sA) =>
    match findAvailableBrowser sA with
    | none => (none, sA)
    | some b =>
      let s1 := updateBrowser sA b.id (fun br =>
        { br with inUse := true, lastUsed := some now, lastHeartbeat := some now,
                  userId := some sessionId, sessionId := some sessionId,
                  clientId := some clientId })
      let s2 := { s1 with sessions :=
          (mapSet s1.sessions sessionId (SessionRec.mk b.id clientId now now)) }
      let s3 := if clientId ≠ "" then
          { s2 with clientSessions := mapSet s2.clientSessions clientId b.id }
        else s2
      let s4 := { s3 with activeConnections := mapSet s3.activeConnections b.id ⟨0, none⟩ }
      let s5 := createSessionTokens s4 b.id freshCk freshUt now
      let s6 := syncBrowserToFirebase s5 b.id
      (some ⟨b.id, false, freshCk, some freshUt⟩, s6)

/-! ## URL codec (`src/unnamed/part_000`, lines 39-87)

URLs are modelled as their UTF-8 byte sequences (`List Nat`, each byte < 256),
so the `Buffer.from(url)` / `.toString('utf-8')` steps of the source are the
identity at this level.  Base64 is the standard RFC 4648 algorithm implemented
by Node's `Buffer`. -/

/-- The base64 alphabet of `Buffer.toString('base64')`. -/
def b64chars : List Char :=
  "ABCDEFGHIJKLMNOPQRSTUVWXYZabcdefghijklmnopqrstuvwxyz0123456789+/".toList

/-- Character for a sextet value. -/
def b64char (n : Nat) : Char := b64chars.getD n 'A'

/-- Sextet value of an alphabet character (`none` for non-alphabet input). -/
def b64charVal (c : Char) : Option Nat := b64chars.findIdx? (fun d => d = c)

/-- Model of `Buffer.from(bytes).toString('base64')`: standard padded base64. -/
def b64encode : List Nat → List Char
  | [] => []
  | [a] => [b64char (a / 4), b64char (a % 4 * 16), '=', '=']
  | [a, b] => [b64char (a / 4), b64char (a % 4 * 16 + b / 16), b64char (b % 16 * 4), '=']
  | a :: b :: c :: rest =>
    b64char (a / 4) :: b64char (a % 4 * 16 + b / 16) ::
      b64char (b % 16 * 4 + c / 64) :: b64char (c % 64) :: b64encode rest

/-- Model of `Buffer.from(s, 'base64')` on well-formed padded base64 text
(groups of four characters, `=` only as final padding); returns `none` on
malformed input, where the Node builtin would instead produce garbage bytes
that `decodeUrl` then rejects by its URL checks. -/
def b64decode : List Char → Option (List Nat)
  | [] => some []
  | c1 :: c2 :: c3 :: c4 :: rest =>
    if c3 = '=' ∧ c4 = '=' ∧ rest = [] then do
      let v1 ← b64charVal c1
      let v2 ← b64charVal c2
      pure [v1 * 4 + v2 / 16]
    else if c4 = '=' ∧ rest = [] then do
      let v1 ← b64charVal c1
      let v2 ← b64charVal c2
      let v3 ← b64charVal c3
      pure [v1 * 4 + v2 / 16, v2 % 16 * 16 + v3 / 4]
    else do
      let v1 ← b64charVal c1
      let v2 ← b64charVal c2
      let v3 ← b64charVal c3
      let v4 ← b64charVal c4
      let tail ← b64decode rest
      pure ((v1 * 4 + v2 / 16) :: (v2 % 16 * 16 + v3 / 4) :: (v3 % 4 * 64 + v4) :: tail)
  | _ => none

/-- The `.replace(/\+/g, '-')` step of `encodeUrl`. -/
def substPlus (c : Char) : Char := if c = '+' then '-' else c

/-- The `.replace(/\//g, '_')` step of `encodeUrl`. -/
def substSlash (c : Char) : Char := if c = '/' then '_' else c

/-- Source: `encodeUrl` (part_000 lines 39-44): URL-safe base64 of the UTF-8
URL, `+` and `/` substituted, padding stripped. -/
def encodeUrl (urlBytes : List Nat) : List Char :=
  (((b64encode urlBytes).map substPlus).map substSlash).filter (fun c => !(c = '='))

/-- The replace-all of dash by plus step of `decodeUrl`. -/
def unsubDash (c : Char) : Char := if c = '-' then '+' else c

/-- The `.replace(/_/g, '\x2f')` step of `decodeUrl`. -/
def unsubUnderscore (c : Char) : Char := if c = '_' then '/' else c

/-- The `while (base64.length % 4) base64 += '='` padding restoration loop. -/
def padB64 (s : List Char) : List Char :=
  s ++ List.replicate ((4 - s.length % 4) % 4) '='

/-- Hex digit value, for the percent-decoding model. -/
def hexVal (c : Char) : Option Nat :=
  if '0' ≤ c ∧ c ≤ '9' then some (c.toNat - 48)
  else if 'A' ≤ c ∧ c ≤ 'F' then some (c.toNat - 55)
  else if 'a' ≤ c ∧ c ≤ 'f' then some (c.toNat - 87)
  else none

/-- Byte-level model of the `decodeURIComponent` builtin: decode `%XX` escape
sequences, fail (throw) on a malformed escape. -/
def pctDecode : List Char → Option (List Char)
  | [] => some []
  | c :: rest =>
    if c = '%' then
      match rest with
      | h1 :: h2 :: rest2 => do
        let v1 ← hexVal h1
        let v2 ← hexVal h2
        let tail ← pctDecode rest2
        pure (Char.ofNat (v1 * 16 + v2) :: tail)
      | _ => none
    else (pctDecode rest).map (fun t => c :: t)

/-- The `try \x7b base64 = decodeURIComponent(base64) \x7d catch(e) \x7b\x7d`
step: keep the original on failure. -/
def decodeURIComponentAttempt (s : List Char) : List Char := (pctDecode s).getD s

/-- UTF-8 bytes of a string (`Buffer.from(s)`). -/
def utf8Bytes (c : Char) : List Nat :=
  let n := c.toNat
  if n < 128 then [n]
  else if n < 2048 then [192 + n / 64, 128 + n % 64]
  else if n < 65536 then [224 + n / 4096, 128 + n / 64 % 64, 128 + n % 64]
  else [240 + n / 262144, 128 + n / 4096 % 64, 128 + n / 64 % 64, 128 + n % 64]

def strBytes (s : String) : List Nat := s.toList.foldr (fun c acc => utf8Bytes c ++ acc) []

/-- Prefix test on byte lists (`String.prototype.startsWith` after UTF-8
decoding). -/
def startsWithBytes (pre bs : List Nat) : Bool := decide (bs.take pre.length = pre)

/-- Model of the `new URL(decoded)` well-formedness test inside `decodeUrl`
(the WHATWG URL parser is a Node builtin): an http(s) URL is accepted iff a
nonempty authority part follows the scheme. -/
def jsUrlValid (bs : List Nat) : Bool :=
  if startsWithBytes (strBytes "http://") bs then decide (bs.length > 7)
  else if startsWithBytes (strBytes "https://") bs then decide (bs.length > 8)
  else false

/-- Source: `decodeUrl` (part_000 lines 49-87): split off any query text,
undo the URL-safe substitutions, restore padding, attempt one percent-unescape,
base64-decode, then reject anything that is not an absolute http(s) URL. -/
def decodeUrl (encoded : List Char) : Option (List Nat) :=
  let base64Part := (encoded.takeWhile (fun c => !(c = '?'))).takeWhile (fun c => !(c = '&'))
  let base64 := (base64Part.map unsubDash).map unsubUnderscore
  let padded := padB64 base64
  let unescaped := decodeURIComponentAttempt padded
  match b64decode unescaped with
  | none => none
  | some decoded =>
    if startsWithBytes (strBytes "http://") decoded
        || startsWithBytes (strBytes "https://") decoded then
      if jsUrlValid decoded then some decoded else none
    else none

/-! ## Client identity derivation (`src/browser-sessions/server.js`, lines 1276-1284) -/

/-- The validity test of `/api/request-browser` on the supplied `clientId`:
`!clientId || typeof clientId !== 'string' || clientId.length < 10`.  A
missing or non-string JSON field is modelled as `none`. -/
def clientIdInvalid : Option String → Bool
  | none => true
  | some c => decide (c = "") || decide (c.length < 10)

/-- Source: the auto-generated client identity (server.js line 1282):
`'auto_' + Buffer.from(ip + '|' + ua).toString('base64').substring(0, 30)`,
where `ua` is the first 50 characters of the User-Agent. -/
def deriveAutoClientId (ip userAgent : String) : String :=
  "auto_" ++ String.mk ((b64encode (strBytes (ip ++ "|" ++ String.mk (userAgent.toList.take 50)))).take 30)

/-- Source: the clientId derivation of `/api/request-browser` (server.js lines
1276-1284): keep a valid supplied clientId, otherwise derive one from
`X-Forwarded-For` (else the socket address, else `'unknown'`) and the
User-Agent. -/
def effectiveClientId (clientId : Option String)
    (xForwardedFor remoteAddress userAgent : Option String) : String :=
  if clientIdInvalid clientId then
    deriveAutoClientId (xForwardedFor.getD (remoteAddress.getD "unknown"))
      (userAgent.getD "unknown")
  else clientId.getD ""

/-! ## Browser proxy request handlers (`src/browser-sessions/server.js`) -/

/-- Numeric value of a digit string. -/
def natOfDigits (ds : List Char) : Nat :=
  ds.foldl (fun n c => n * 10 + (c.toNat - 48)) 0

/-- Source: `parseBrowserPath` (server.js lines 577-585), the regex
`^\x2fbrowser\x2f(\d+)(\x2f.*)?$`: the slot id and the remaining path
(`'\x2f'` when the path ends after the digits). -/
def parseBrowserPath (pathname : String) : Option (Nat × String) :=
  let cs := pathname.toList
  if decide (cs.take 9 = "/browser/".toList) then
    let rest := cs.drop 9
    let digits := rest.takeWhile Char.isDigit
    let tail := rest.drop digits.length
    if decide (digits = []) then none
    else
      match tail with
      | [] => some (natOfDigits digits, "/")
      | '/' :: _ => some (natOfDigits digits, String.mk tail)
      | _ => none
  else none

/-- Outcome of the HTTP access-control block for a `/browser/<id>/...` request
(server.js lines 630-681).  `granted setCookie`: the request is proxied
upstream; `setCookie` is the `nebula_session` value emitted when a one-time
URL token was consumed on this request. -/
inductive AccessOutcome where
  | notFound
  | denied
  | granted (setCookie : Option String)
deriving DecidableEq

/-- Source: the access-control block of the HTTP handler (server.js lines
630-681): cookie first, then the one-time URL token, which is consumed and
exchanged for the `Set-Cookie` of its partner cookie token; otherwise 403.
`qToken` is the `?token=` query parameter. -/
def browserHttpAccess (s : ServerState) (pathname : String)
    (cookieSession : Option String) (qToken : Option String) :
    AccessOutcome × ServerState :=
  match parseBrowserPath pathname with
  | none => (.notFound, s)
  | some (browserId, _) =>
    match getBrowserById s browserId with
    | none => (.notFound, s)
    | some b =>
      if validateBrowserAccess s cookieSession b.id then (.granted none, s)
      else
        match qToken with
        | some qt =>
          (match mapGet s.urlTokens qt with
           | some entry =>
             if entry.browserId = b.id then
               (.granted (some entry.cookieToken),
                { s with urlTokens := mapDel s.urlTokens qt })
             else (.denied, s)
           | none => (.denied, s))
        | none => (.denied, s)

/-- Source: `getBrowserFromCookie` (server.js lines 601-608).  `cookieBrowser`
models `parseInt(cookies.nebula_browser, 10)` (`none` for absent cookie or
`NaN`; `parseInt` of a zero digit yields the falsy `0`, modelled by `some 0`,
which the `browserId &&` guard rejects via the `1 ≤` bound). -/
def getBrowserFromCookie (s : ServerState) (cookieBrowser : Option Nat) : Option Browser :=
  match cookieBrowser with
  | none => none
  | some bid =>
    if 1 ≤ bid ∧ bid ≤ s.browsers.length then getBrowserById s bid else none

/-- Source: the audio-path test of the upgrade handler (server.js line 1452):
`remainingPath === '\x2faudio' || remainingPath.startsWith('\x2fkasmaudio')`. -/
def isAudioWsPath (remainingPath : String) : Bool :=
  remainingPath = "/audio" || strStartsWith remainingPath "/kasmaudio"

/-- Outcome of the WebSocket upgrade handler (server.js lines 1424-1459):
400 when no browser can be resolved, 403 on failed validation, otherwise the
tunnel is opened (`audio` marks the ffmpeg audio side-channel). -/
inductive UpgradeOutcome where
  | badRequest
  | denied
  | tunnel (browserId : Nat) (audio : Bool)
deriving DecidableEq

/-- Source: the access-control part of `server.on('upgrade')` (server.js lines
1424-1459): resolve the browser from the path (or from the `nebula_browser`
cookie for bare `\x2fwebsockify` and `\x2fapi\x2f` upgrades), then validate the
session cookie — except for the audio side-channel paths, which skip
validation. -/
def upgradeAccess (s : ServerState) (pathname : String)
    (cookieSession : Option String) (cookieBrowser : Option Nat) : UpgradeOutcome :=
  let browserFound :=
    match parseBrowserPath pathname with
    | some (bid, _) => getBrowserById s bid
    | none =>
      if pathname = "/websockify" || strStartsWith pathname "/api/" then
        getBrowserFromCookie s cookieBrowser
      else none
  match browserFound with
  | none => .badRequest
  | some b =>
    let isAudioWs :=
      match parseBrowserPath pathname with
      | some (_, rest) => isAudioWsPath rest
      | none => false
    if !isAudioWs && !validateBrowserAccess s cookieSession b.id then .denied
    else .tunnel b.id isAudioWs

/-! ## Liveness bookkeeping and the reaper (`src/browser-sessions/server.js`) -/

/-- JS `x || 0` over a nullable number: `null` and `0` are both falsy. -/
def jsNum (a : Option Nat) : Nat := a.getD 0

/-- JS `a || b` over nullable numbers (`0` falls through). -/
def jsOrNum (a b : Option Nat) : Nat := if jsNum a ≠ 0 then jsNum a else jsNum b

/-- `SESSION_TIMEOUT_MS` (server.js line 287). -/
def sessionTimeoutMs : Nat := 5 * 60 * 1000

/-- `WS_PRESENCE_TIMEOUT_MS` (server.js line 288). -/
def wsPresenceTimeoutMs : Nat := 2 * 60 * 1000

/-- The session-activity loop of the heartbeat handler (server.js lines
1348-1353): update `lastActivity` of the first session of the browser, then
`break`. -/
def updateFirstSessionActivity (browserId now : Nat) :
    List (String × SessionRec) → List (String × SessionRec)
  | [] => []
  | p :: rest =>
    if p.2.browserId = browserId then (p.1, { p.2 with lastActivity := now }) :: rest
    else p :: updateFirstSessionActivity browserId now rest

/-- Source: the `browserId` branch of the heartbeat handler (server.js lines
1343-1357).  `syncSample` models the `Math.random() < 0.2` sampling of the
mirror write. -/
def heartbeatByBrowserId (s : ServerState) (browserId now : Nat)
    (syncSample : Bool) : ServerState :=
  match getBrowserById s browserId with
  | none => s
  | some b =>
    if b.inUse then
      let s1 := updateBrowser s browserId (fun br => { br with lastHeartbeat := some now })
      let s2 := { s1 with sessions := updateFirstSessionActivity browserId now s1.sessions }
      if syncSample then syncBrowserToFirebase s2 browserId else s2
    else s

/-- Source: `trackWsConnect` (server.js lines 440-452). -/
def trackWsConnect (s : ServerState) (browserId now : Nat) : ServerState :=
  let conn := (mapGet s.activeConnections browserId).getD ⟨0, none⟩
  let s1 := { s with activeConnections :=
      (mapSet s.activeConnections browserId (ConnInfo.mk (conn.count + 1) none)) }
  match getBrowserById s1 browserId with
  | some b =>
    if b.inUse then
      updateBrowser s1 browserId (fun br => { br with lastHeartbeat := some now })
    else s1
  | none => s1

/-- Source: `trackWsDisconnect` (server.js lines 455-464). -/
def trackWsDisconnect (s : ServerState) (browserId now : Nat) : ServerState :=
  match mapGet s.activeConnections browserId with
  | none => s
  | some conn =>
    let newCount := conn.count - 1
    { s with activeConnections :=
        (mapSet s.activeConnections browserId
          (ConnInfo.mk newCount (if newCount = 0 then some now else conn.lastDisconnect))) }

/-- One iteration of the `cleanupSessions` loop (server.js lines 410-432) for
the slot with the given id. -/
def cleanupOneSlot (now : Nat) (s : ServerState) (browserId : Nat) : ServerState :=
  match getBrowserById s browserId with
  | none => s
  | some b =>
    if !b.inUse then s
    else
      let lastHb := jsOrNum b.lastHeartbeat b.lastUsed
      if lastHb ≠ 0 ∧ now - lastHb > sessionTimeoutMs then doReleaseBrowser s browserId
      else
        let conn := mapGet s.activeConnections browserId
        let noActive := match conn with | none => true | some c => decide (c.count = 0)
        if noActive then
          let disconnectTime := jsOrNum (conn.bind (fun c => c.lastDisconnect)) b.lastUsed
          let assignAge := now - jsNum b.lastUsed
          if assignAge > 60000 ∧ disconnectTime ≠ 0
              ∧ now - disconnectTime > wsPresenceTimeoutMs then
            doReleaseBrowser s browserId
          else s
        else s

/-- Source: `cleanupSessions` (server.js lines 407-433), run by the 30-second
reaper interval: iterate over the slot pool, releasing dead sessions. -/
def cleanupSessions (s : ServerState) (now : Nat) : ServerState :=
  (s.browsers.map (fun b => b.id)).foldl (cleanupOneSlot now) s

/-- Source: the clientId branch of `/api/release` (server.js lines 1392-1398). -/
def releaseByClientId (s : ServerState) (clientId : String) : ServerState :=
  match findBrowserByClientId s clientId with
  | (some b, sA) => doReleaseBrowser sA b.id
  | (none, sA) => sA

/-- Source: the browserId branch of `/api/release` (server.js lines 1400-1406). -/
def releaseByBrowserId (s : ServerState) (browserId : Nat) : ServerState :=
  match getBrowserById s browserId with
  | some b => if b.inUse then doReleaseBrowser s browserId else s
  | none => s

/-- Source: `/api/check-session` (server.js lines 1232-1266): for a live
session, ensure a cookie token exists and mint a fresh one-time URL token;
release a stale session.  Returns the `(browserId, urlToken)` pair of the
response when a session is found. -/
def checkSession (s : ServerState) (clientId freshCk freshUt : String)
    (now : Nat) : Option (Nat × String) × ServerState :=
  match findBrowserByClientId s clientId with
  | (none, sA) => (none, sA)
  | (some b, sA) =>
    let lastHb := jsOrNum b.lastHeartbeat b.lastUsed
    let age := now - lastHb
    if age < sessionTimeoutMs then
      let s1 :=
        match mapGet sA.browserTokens b.id with
        | some _ => sA
        | none =>
          { sA with
              browserTokens := mapSet sA.browserTokens b.id freshCk,
              tokenToBrowser := mapSet sA.tokenToBrowser freshCk b.id }
      let (ut, s2) := createUrlToken s1 b.id freshUt now
      (ut.map (fun t => (b.id, t)), s2)
    else (none, doReleaseBrowser sA b.id)

/-! ## Operation traces

An interleaving of the server's state-mutating events.  Random identifiers
drawn inside a handler (`generateSecureToken`, `generateSessionId`) appear as
explicit parameters of the constructor. -/

/-- One state-mutating server event. -/
inductive Op where
  | requestBrowser (sessionId clientId freshCk freshUt : String) (now : Nat)
  | checkSessionOp (clientId freshCk freshUt : String) (now : Nat)
  | httpAccess (pathname : String) (cookieSession qToken : Option String)
  | heartbeat (browserId now : Nat) (syncSample : Bool)
  | releaseClient (clientId : String)
  | releaseBrowser (browserId : Nat)
  | wsConnect (browserId now : Nat)
  | wsDisconnect (browserId now : Nat)
  | gcUrlTokens (now : Nat)
  | reaper (now : Nat)

/-- State transition of one event. -/
def stepOp (s : ServerState) : Op → ServerState
  | .requestBrowser sid cid ck ut now => (assignBrowser s sid cid ck ut now).2
  | .checkSessionOp cid ck ut now => (checkSession s cid ck ut now).2
  | .httpAccess p c q => (browserHttpAccess s p c q).2
  | .heartbeat bid now sync => heartbeatByBrowserId s bid now sync
  | .releaseClient cid => releaseByClientId s cid
  | .releaseBrowser bid => releaseByBrowserId s bid
  | .wsConnect bid now => trackWsConnect s bid now
  | .wsDisconnect bid now => trackWsDisconnect s bid now
  | .gcUrlTokens now => cleanupUrlTokens s now
  | .reaper now => cleanupSessions s now

/-- Run a trace of events. -/
def runOps (s : ServerState) (ops : List Op) : ServerState :=
  ops.foldl stepOp s

/-- The fresh one-time URL tokens an event can insert into `urlTokens`
(drawn by `generateSecureToken`, collision-free with overwhelming
probability; the theorems make the freshness explicit). -/
def mintedUrlTokens : Op → List String
  | .requestBrowser _ _ _ ut _ => [ut]
  | .checkSessionOp _ _ ut _ => [ut]
  | _ => []

/-- The fresh cookie tokens an event can insert into `tokenToBrowser`. -/
def mintedCookieTokens : Op → List String
  | .requestBrowser _ _ ck _ _ => [ck]
  | .checkSessionOp _ ck _ _ => [ck]
  | _ => []

/-- Source: the `BROWSERS` pool literal (server.js lines 240-251): ten slots
on localhost, ports 6901-6910, audio ports 4901-4910, all free. -/
def initialBrowsers : List Browser :=
  (List.range 10).map (fun i =>
    Browser.mk (i + 1) "localhost" (6901 + i) (4901 + i) false none none none none none)

/-- The broker's state at process start (before any Firebase restore): the
fixed pool and empty maps. -/
def initialServerState : ServerState :=
  ServerState.mk initialBrowsers [] [] [] [] [] [] []

/-! ## URL parsing model and the upstream fetcher (`src/unnamed/part_000`) -/

/-- Occurrence of `sub` as a contiguous run anywhere in the list. -/
def containsSeq (sub : List Char) : List Char → Bool
  | [] => decide (sub = [])
  | c :: rest => decide ((c :: rest).take sub.length = sub) || containsSeq sub rest

/-- Substring test (`String.prototype.includes`). -/
def strContains (s sub : String) : Bool := containsSeq sub.toList s.toList

/-- The components of an absolute http(s) URL that the embedded code reads off
`new URL(u)`: `protocol`, `host`, `pathname`, `search`. -/
structure UrlParts where
  protocol : String
  host : String
  pathname : String
  search : String
deriving DecidableEq

/-- Model of the WHATWG `new URL(u)` parse of an absolute http(s) URL (a Node
builtin), as far as the code consumes it: scheme, authority, path and query
split; `none` models the constructor throwing.  Fragments, userinfo and
normalisation are outside the inputs the claims quantify over. -/
def parseAbsUrl (u : String) : Option UrlParts :=
  let cs := u.toList
  let protoLen :=
    if decide (cs.take 7 = "http://".toList) then 7
    else if decide (cs.take 8 = "https://".toList) then 8
    else 0
  if protoLen = 0 then none
  else
    let rest := cs.drop protoLen
    let hostCs := rest.takeWhile (fun c => !(c = '/' || c = '?' || c = '#'))
    if decide (hostCs = []) then none
    else
      let afterHost := rest.drop hostCs.length
      let pathCs := afterHost.takeWhile (fun c => !(c = '?' || c = '#'))
      let queryCs := (afterHost.drop pathCs.length).takeWhile (fun c => !(c = '#'))
      some (UrlParts.mk (if protoLen = 7 then "http:" else "https:")
        (String.mk hostCs)
        (if decide (pathCs = []) then "/" else String.mk pathCs)
        (String.mk queryCs))

/-- The `origin` property of a parsed URL. -/
def urlOrigin (p : UrlParts) : String := p.protocol ++ "//" ++ p.host

/-- `base.pathname.substring(0, base.pathname.lastIndexOf('\x2f') + 1)`:
the directory portion of a path. -/
def dirOf (pathname : String) : String :=
  let cs := pathname.toList
  let cut := (List.range cs.length).foldl
    (fun acc i => if cs.getD i ' ' = '/' then i + 1 else acc) 0
  String.mk (cs.take cut)

/-- Model of `new URL(location, url).href` for redirect resolution: absolute
http(s) locations are used as-is, scheme-relative and root-relative ones are
resolved against the current URL, other forms against its directory. -/
def resolveUrl (location current : String) : String :=
  if strStartsWith location "http://" || strStartsWith location "https://" then location
  else
    match parseAbsUrl current with
    | none => location
    | some p =>
      if strStartsWith location "//" then p.protocol ++ location
      else if strStartsWith location "/" then urlOrigin p ++ location
      else urlOrigin p ++ dirOf p.pathname ++ location

/-- One upstream response as the redirect logic of `fetchUrl` observes it:
the status code and the `Location` header. -/
structure UpstreamResponse where
  statusCode : Nat
  location : Option String
deriving DecidableEq

/-- What a resolved fetch surfaces for the claims: the request method of the
final hop (the code re-issues the unchanged `options` on every redirect), the
final URL and its status. -/
structure FetchOutcome where
  method : String
  url : String
  statusCode : Nat
deriving DecidableEq

/-- Source: the redirect handling of `fetchUrl` (part_000 lines 144-151):
every 3xx response carrying a `Location` header is followed by re-invoking
`fetchUrl(new URL(location, url).href, options)` with the unchanged options.
The chain of upstream responses is supplied as a list; `none` models the chain
being exhausted while the code would still be following (the code has no depth
bound). -/
def fetchUrl (method url : String) : List UpstreamResponse → Option FetchOutcome
  | [] => none
  | r :: rest =>
    if 300 ≤ r.statusCode ∧ r.statusCode < 400 then
      match r.location with
      | some loc => fetchUrl method (resolveUrl loc url) rest
      | none => some (FetchOutcome.mk method url r.statusCode)
    else some (FetchOutcome.mk method url r.statusCode)

/-! ## CSS rewriter (`src/unnamed/part_000`, lines 1259-1313) -/

/-- Whitespace class of the regex `\s`. -/
def isSpaceChar (c : Char) : Bool :=
  c = ' ' || c = '\t' || c = '\n' || c = '\r' || c = '\x0b' || c = '\x0c'

/-- The URL absolutisation steps shared by the rewriters (part_000 lines
1267-1277): scheme-relative, root-relative and relative references resolved
against the base, everything else kept. -/
def absolutise (base : UrlParts) (url : String) : String :=
  if strStartsWith url "//" then base.protocol ++ url
  else if strStartsWith url "/" then urlOrigin base ++ url
  else if !(strContains url "://") then
    urlOrigin base ++ dirOf base.pathname ++ url
  else url

/-- The replacement the `url(...)` rewriter of `rewriteCss` produces for a
captured reference (part_000 lines 1264-1287): absolutise, then
`url("<proxyOrigin><pathname><search><sep>__cpo=<base64>")`. -/
def rewriteCssUrl (base : UrlParts) (proxyOrigin url : String) : String :=
  let absolute := absolutise base url
  match parseAbsUrl absolute with
  | some t =>
    "url(\"" ++ proxyOrigin ++ t.pathname
      ++ (if t.search = "" then "?" else t.search ++ "&")
      ++ "__cpo=" ++ String.mk (encodeUrl (strBytes absolute)) ++ "\")"
  | none =>
    "url(\"" ++ proxyOrigin ++ "/?__cpo="
      ++ String.mk (encodeUrl (strBytes absolute)) ++ "\")"

/-- The replacement the `@import` rewriter of `rewriteCss` produces (part_000
lines 1290-1310). -/
def rewriteCssImport (base : UrlParts) (proxyOrigin url : String) : String :=
  let absolute := absolutise base url
  match parseAbsUrl absolute with
  | some t =>
    "@import \"" ++ proxyOrigin ++ t.pathname
      ++ (if t.search = "" then "?" else t.search ++ "&")
      ++ "__cpo=" ++ String.mk (encodeUrl (strBytes absolute)) ++ "\""
  | none =>
    "@import \"" ++ proxyOrigin ++ "/?__cpo="
      ++ String.mk (encodeUrl (strBytes absolute)) ++ "\""

/-- Matcher for the regex `url\s*\(\s*["']?([^"'\)]+)["']?\s*\)` (flags `gi`)
at the start of the input.  Returns the captured reference, the full matched
text and the remainder on success. -/
def tryMatchCssUrl (cs : List Char) : Option (String × String × List Char) :=
  match cs with
  | c1 :: c2 :: c3 :: rest0 =>
    if (c1 = 'u' || c1 = 'U') && (c2 = 'r' || c2 = 'R') && (c3 = 'l' || c3 = 'L') then
      let ws1 := rest0.takeWhile isSpaceChar
      let rest1 := rest0.drop ws1.length
      match rest1 with
      | '(' :: rest2 =>
        let ws2 := rest2.takeWhile isSpaceChar
        let rest3 := rest2.drop ws2.length
        let (q1, rest4) :=
          match rest3 with
          | q :: r => if q = '"' || q = '\'' then ([q], r) else ([], rest3)
          | [] => ([], rest3)
        let cap := rest4.takeWhile (fun c => !(c = '"' || c = '\'' || c = ')'))
        if decide (cap = []) then none
        else
          let rest5 := rest4.drop cap.length
          let (q2, rest6) :=
            match rest5 with
            | q :: r => if q = '"' || q = '\'' then ([q], r) else ([], rest5)
            | [] => ([], rest5)
          let ws3 := rest6.takeWhile isSpaceChar
          let rest7 := rest6.drop ws3.length
          match rest7 with
          | ')' :: remainder =>
            some (String.mk cap,
              String.mk ([c1, c2, c3] ++ ws1 ++ ['('] ++ ws2 ++ q1 ++ cap ++ q2 ++ ws3 ++ [')']),
              remainder)
          | _ => none
      | _ => none
    else none
  | _ => none

/-- Global left-to-right replacement for the `url(...)` pattern, continuing
after each match (`String.prototype.replace` with the `g` flag).  `repl`
receives the captured reference and the full matched text.  Fuel is the input
length (every step consumes at least one character). -/
def scanCssUrls (repl : String → String → String) : Nat → List Char → List Char
  | 0, cs => cs
  | _ + 1, [] => []
  | fuel + 1, c :: cs =>
    match tryMatchCssUrl (c :: cs) with
    | some (url, matched, remainder) =>
      (repl url matched).toList ++ scanCssUrls repl fuel remainder
    | none => c :: scanCssUrls repl fuel cs

/-- Matcher for the regex `@import\s+["']([^"']+)["']` (flags `gi`) at the
start of the input. -/
def tryMatchCssImport (cs : List Char) : Option (String × List Char) :=
  match cs with
  | '@' :: i1 :: i2 :: i3 :: i4 :: i5 :: i6 :: rest0 =>
    if (i1 = 'i' || i1 = 'I') && (i2 = 'm' || i2 = 'M') && (i3 = 'p' || i3 = 'P')
        && (i4 = 'o' || i4 = 'O') && (i5 = 'r' || i5 = 'R') && (i6 = 't' || i6 = 'T') then
      let ws := rest0.takeWhile isSpaceChar
      if decide (ws = []) then none
      else
        let rest1 := rest0.drop ws.length
        match rest1 with
        | q :: rest2 =>
          if q = '"' || q = '\'' then
            let cap := rest2.takeWhile (fun c => !(c = '"' || c = '\''))
            if decide (cap = []) then none
            else
              let rest3 := rest2.drop cap.length
              match rest3 with
              | q' :: remainder =>
                if q' = '"' || q' = '\'' then some (String.mk cap, remainder)
                else none
              | [] => none
          else none
        | [] => none
    else none
  | _ => none

/-- Global replacement pass for the `@import` pattern. -/
def scanCssImports (repl : String → String) : Nat → List Char → List Char
  | 0, cs => cs
  | _ + 1, [] => []
  | fuel + 1, c :: cs =>
    match tryMatchCssImport (c :: cs) with
    | some (url, remainder) => (repl url).toList ++ scanCssImports repl fuel remainder
    | none => c :: scanCssImports repl fuel cs

/-- Source: `rewriteCss` (part_000 lines 1259-1313): rewrite `url(...)`
references (skipping `data:`) and `@import` targets through the proxy.
`none` models `new URL(baseUrl)` throwing, which the caller catches by keeping
the original body. -/
def rewriteCss (content baseUrl proxyOrigin : String) : Option String :=
  (parseAbsUrl baseUrl).map (fun base =>
    let cs := content.toList
    let pass1 := scanCssUrls
      (fun url matched =>
        if strStartsWith url "data:" then matched else rewriteCssUrl base proxyOrigin url)
      cs.length cs
    let pass2 := scanCssImports (fun url => rewriteCssImport base proxyOrigin url)
      pass1.length pass1
    String.mk pass2)

/-! ## Localhost-target resolution of the proxy router
(`src/unnamed/part_000`, lines 1623-1657 and 1688) -/

/-- UTF-8 byte list turned back into a string (`Buffer.toString('utf-8')`),
modelled for ASCII content. -/
def stringOfBytes (bs : List Nat) : String := String.mk (bs.map Char.ofNat)

/-- The body of the `try` block guarding the localhost resolution (part_000
lines 1627-1656): `none` models an exception, after which `targetUrl` is left
unchanged.  `refererCpo` is the `__cpo` token extracted from the `Referer`
header by the regex (or `none` when the header carries none); `sessionBase` is
`sessionBaseUrls.get(clientId)`. -/
def resolveLocalhostBlock (targetUrl : String) (refererCpo : Option String)
    (sessionBase : Option String) : Option String := do
  let localUrl ← parseAbsUrl targetUrl
  let localPath := localUrl.pathname ++ localUrl.search
  let t1 ←
    match refererCpo with
    | some tok =>
      match decodeUrl tok.toList with
      | some refBytes =>
        let refererBase := stringOfBytes refBytes
        if !(strContains refererBase "localhost") then
          (parseAbsUrl refererBase).map (fun rb => urlOrigin rb ++ localPath)
        else some targetUrl
      | none => some targetUrl
    | none => some targetUrl
  if strContains t1 "localhost" then
    match sessionBase with
    | some sb =>
      if !(strContains sb "localhost") then
        (parseAbsUrl sb).map (fun rb => urlOrigin rb ++ localPath)
      else some t1
    | none => some t1
  else some t1

/-- Source: the localhost check and fallback of the `__cpo` proxy branch
(part_000 lines 1623-1657): the URL the subsequent `fetchUrl` call (line 1688)
is unconditionally issued with. -/
def resolveProxyTarget (targetUrl : String) (refererCpo : Option String)
    (sessionBase : Option String) : String :=
  if strContains targetUrl "localhost:" || strContains targetUrl "127.0.0.1:" then
    (resolveLocalhostBlock targetUrl refererCpo sessionBase).getD targetUrl
  else targetUrl

/-! ## Theorems -/

/-! ### C6: redirect handling of the upstream fetcher -/

/-- Claim C6, counterexample: on a 303 response to a POST the fetcher re-issues
the request with the unchanged options, so the method stays POST; the claimed
POST-to-GET downgrade on 301/302/303 does not happen. -/
theorem fetchUrl_post_not_downgraded_on_303 :
    fetchUrl "POST" "http://a.com/p"
        [UpstreamResponse.mk 303 (some "http://b.com/q"), UpstreamResponse.mk 200 none]
      = some (FetchOutcome.mk "POST" "http://b.com/q" 200)
    ∧ "POST" ≠ "GET" := by
  exact ⟨by decide, by decide⟩

/-- Claim C6 (amended): the fetcher follows every 3xx upstream response
carrying a `Location` header, resolving each `Location` against the current
URL, with no bound on the redirect depth, and it preserves the request method
(and options) across every redirect status — 301, 302 and 303 included; the
chain ends at the first non-redirecting response. -/
theorem fetchUrl_redirect_chain (method url : String)
    (chain : List UpstreamResponse) (final : UpstreamResponse)
    (hredir : ∀ r ∈ chain, 300 ≤ r.statusCode ∧ r.statusCode < 400 ∧ r.location.isSome)
    (hfinal : ¬(300 ≤ final.statusCode ∧ final.statusCode < 400 ∧ final.location.isSome)) :
    fetchUrl method url (chain ++ [final]) =
      some (FetchOutcome.mk method
        (chain.foldl (fun cur r => resolveUrl (r.location.getD "") cur) url)
        final.statusCode) := by
  induction chain generalizing url with
  | nil =>
    simp only [List.nil_append, List.foldl_nil, fetchUrl]
    by_cases h3 : 300 ≤ final.statusCode ∧ final.statusCode < 400
    · rw [if_pos h3]
      match hl : final.location with
      | none => rfl
      | some loc => exact absurd ⟨h3.1, h3.2, by rw [hl]; rfl⟩ hfinal
    · rw [if_neg h3]
  | cons r rest ih =>
    obtain ⟨h1, h2, h3⟩ := hredir r (List.mem_cons_self r rest)
    match hl : r.location with
    | none => rw [hl] at h3; simp at h3
    | some loc =>
      have hcond : 300 ≤ r.statusCode ∧ r.statusCode < 400 := ⟨h1, h2⟩
      rw [List.cons_append, List.foldl_cons]
      simp only [fetchUrl]
      rw [if_pos hcond, hl]
      exact ih (resolveUrl loc url) (fun q hq => hredir q (List.mem_cons_of_mem r hq))

/-- Witness for the amended C6 theorem at a concrete two-redirect chain. -/
theorem fetchUrl_redirect_chain_witness :
    fetchUrl "POST" "http://a.com/p"
        [UpstreamResponse.mk 301 (some "/r1"), UpstreamResponse.mk 302 (some "https://c.com/r2"),
         UpstreamResponse.mk 200 none]
      = some (FetchOutcome.mk "POST" "https://c.com/r2" 200) := by
  have h := fetchUrl_redirect_chain "POST" "http://a.com/p"
    [UpstreamResponse.mk 301 (some "/r1"), UpstreamResponse.mk 302 (some "https://c.com/r2")]
    (UpstreamResponse.mk 200 none)
    (by decide) (by decide)
  rw [show ([UpstreamResponse.mk 301 (some "/r1"),
        UpstreamResponse.mk 302 (some "https://c.com/r2")] ++ [UpstreamResponse.mk 200 none])
      = [UpstreamResponse.mk 301 (some "/r1"), UpstreamResponse.mk 302 (some "https://c.com/r2"),
        UpstreamResponse.mk 200 none] from rfl] at h
  rw [h]
  decide

/-! ### C7: idempotence of the rewriters -/

/-- Claim C7: `rewriteCss` has no `__cpo=` guard, so rewriting an
already-rewritten CSS body is not a no-op: the once-rewritten reference (which
already points at the proxy and carries `__cpo=`) is proxied a second time. -/
theorem rewriteCss_not_idempotent :
    rewriteCss "url(https://e.com/p)" "https://e.com/style.css" "http://localhost:3003"
      = some "url(\"http://localhost:3003/p?__cpo=aHR0cHM6Ly9lLmNvbS9w\")"
    ∧ rewriteCss "url(\"http://localhost:3003/p?__cpo=aHR0cHM6Ly9lLmNvbS9w\")"
        "https://e.com/style.css" "http://localhost:3003"
      ≠ some "url(\"http://localhost:3003/p?__cpo=aHR0cHM6Ly9lLmNvbS9w\")" := by
  exact ⟨by decide, by decide⟩

/-! ### C8: localhost-target resolution -/

/-- Claim C8, counterexample: a decoded localhost target with no referer
`__cpo` and no stored session base is fetched as-is — the upstream fetch is
issued against the proxy itself. -/
theorem resolveProxyTarget_self_loop :
    resolveProxyTarget "http://localhost:3003/x?q=1" none none = "http://localhost:3003/x?q=1"
    ∧ strContains "http://localhost:3003/x?q=1" "localhost:" = true := by
  exact ⟨by decide, by decide⟩

/-- Claim C8 (amended): for a decoded target pointing at localhost the router
substitutes the origin of the Referer's decoded `__cpo` base when that base is
available and not itself a localhost URL, else the origin of the per-client
session base under the same proviso, keeping the target's path and query; but
when neither fallback is available the fetch is issued to the original
localhost target (the self-loop is not prevented in that case). -/
theorem resolveProxyTarget_fallbacks (targetUrl : String) (lu : UrlParts)
    (hdet : strContains targetUrl "localhost:" = true)
    (hparse : parseAbsUrl targetUrl = some lu) :
    (∀ tok refBytes rb, decodeUrl tok.toList = some refBytes →
        strContains (stringOfBytes refBytes) "localhost" = false →
        parseAbsUrl (stringOfBytes refBytes) = some rb →
        strContains (urlOrigin rb ++ (lu.pathname ++ lu.search)) "localhost" = false →
        ∀ sessionBase, resolveProxyTarget targetUrl (some tok) sessionBase
          = urlOrigin rb ++ (lu.pathname ++ lu.search))
    ∧ (∀ sb rb, strContains sb "localhost" = false →
        parseAbsUrl sb = some rb →
        strContains targetUrl "localhost" = true →
        resolveProxyTarget targetUrl none (some sb)
          = urlOrigin rb ++ (lu.pathname ++ lu.search))
    ∧ resolveProxyTarget targetUrl none none = targetUrl := by
  refine ⟨?_, ?_, ?_⟩
  · intro tok refBytes rb hdec hnl hrb hres sessionBase
    have hdec' : decodeUrl tok.data = some refBytes := hdec
    simp [resolveProxyTarget, resolveLocalhostBlock, hdet, hparse, hdec', hnl, hrb, hres]
  · intro sb rb hnl hrb hcl
    simp [resolveProxyTarget, resolveLocalhostBlock, hdet, hparse, hnl, hrb, hcl]
  · by_cases hcl : strContains targetUrl "localhost" = true
    · simp [resolveProxyTarget, resolveLocalhostBlock, hdet, hparse, hcl]
    · simp [resolveProxyTarget, resolveLocalhostBlock, hdet, hparse,
        Bool.not_eq_true _ ▸ hcl]

/-- Witness for the amended C8 theorem: referer substitution, session
substitution and the no-fallback pass-through at concrete inputs. -/
theorem resolveProxyTarget_fallbacks_witness :
    resolveProxyTarget "http://localhost:3003/x?q=1"
        (some (String.mk (encodeUrl (strBytes "https://real.com/page")))) none
      = "https://real.com/x?q=1"
    ∧ resolveProxyTarget "http://localhost:3003/x?q=1" none (some "https://sess.com/base")
      = "https://sess.com/x?q=1"
    ∧ resolveProxyTarget "http://localhost:3003/x?q=1" none none
      = "http://localhost:3003/x?q=1" := by
  have h := resolveProxyTarget_fallbacks "http://localhost:3003/x?q=1"
    (UrlParts.mk "http:" "localhost:3003" "/x" "?q=1") (by decide) (by decide)
  refine ⟨?_, ?_, h.2.2⟩
  · have := h.1 (String.mk (encodeUrl (strBytes "https://real.com/page")))
      (strBytes "https://real.com/page") (UrlParts.mk "https:" "real.com" "/page" "")
      (by decide) (by decide) (by decide) (by decide) none
    simpa using this
  · have := h.2.1 "https://sess.com/base" (UrlParts.mk "https:" "sess.com" "/base" "")
      (by decide) (by decide) (by decide)
    simpa using this

/-! ### C5: the URL codec round-trip -/

theorem b64char_mem (n : Nat) : b64char n ∈ b64chars := by
  unfold b64char
  rcases Nat.lt_or_ge n b64chars.length with h | h
  · rw [List.getD_eq_getElem _ _ h]
    exact List.getElem_mem _
  · rw [List.getD_eq_default _ _ h]
    decide

theorem b64char_ne_pad (n : Nat) : b64char n ≠ '=' := by
  intro h
  have hm := b64char_mem n
  rw [h] at hm
  exact absurd hm (by decide)

theorem b64encode_mem : ∀ (bs : List Nat), ∀ c ∈ b64encode bs, c ∈ b64chars ∨ c = '='
  | [], c, hc => by simp [b64encode] at hc
  | [a], c, hc => by
    simp only [b64encode, List.mem_cons, List.not_mem_nil, or_false] at hc
    rcases hc with rfl | rfl | rfl | rfl
    · exact Or.inl (b64char_mem _)
    · exact Or.inl (b64char_mem _)
    · exact Or.inr rfl
    · exact Or.inr rfl
  | [a, b], c, hc => by
    simp only [b64encode, List.mem_cons, List.not_mem_nil, or_false] at hc
    rcases hc with rfl | rfl | rfl | rfl
    · exact Or.inl (b64char_mem _)
    · exact Or.inl (b64char_mem _)
    · exact Or.inl (b64char_mem _)
    · exact Or.inr rfl
  | a :: b :: d :: rest, c, hc => by
    simp only [b64encode, List.mem_cons] at hc
    rcases hc with rfl | rfl | rfl | rfl | hmem
    · exact Or.inl (b64char_mem _)
    · exact Or.inl (b64char_mem _)
    · exact Or.inl (b64char_mem _)
    · exact Or.inl (b64char_mem _)
    · exact b64encode_mem rest c hmem

theorem padB64_append4 (c1 c2 c3 c4 : Char) (l : List Char) :
    padB64 (c1 :: c2 :: c3 :: c4 :: l) = c1 :: c2 :: c3 :: c4 :: padB64 l := by
  unfold padB64
  have hlen : (c1 :: c2 :: c3 :: c4 :: l).length % 4 = l.length % 4 := by
    simp only [List.length_cons]
    omega
  rw [hlen]
  simp [List.cons_append]

theorem filter_ne_pad_b64char (x : Nat) (l : List Char) :
    (b64char x :: l).filter (fun c => !(c = '=')) = b64char x :: l.filter (fun c => !(c = '=')) :=
  List.filter_cons_of_pos (by simp [b64char_ne_pad x])

theorem padB64_filter_b64encode : ∀ (bs : List Nat),
    padB64 ((b64encode bs).filter (fun c => !(c = '='))) = b64encode bs
  | [] => by decide
  | [a] => by
    simp only [b64encode, filter_ne_pad_b64char]
    rw [List.filter_cons_of_neg (by simp), List.filter_cons_of_neg (by simp),
      List.filter_nil]
    simp [padB64, List.replicate]
  | [a, b] => by
    simp only [b64encode, filter_ne_pad_b64char]
    rw [List.filter_cons_of_neg (by simp), List.filter_nil]
    simp [padB64, List.replicate]
  | a :: b :: d :: rest => by
    simp only [b64encode, filter_ne_pad_b64char]
    rw [padB64_append4]
    rw [padB64_filter_b64encode rest]

theorem b64charVal_b64char (n : Nat) (h : n < 64) : b64charVal (b64char n) = some n := by
  have hall : ∀ m : Fin 64, b64charVal (b64char m.val) = some m.val := by decide
  exact hall ⟨n, h⟩

theorem b64decode_b64encode : ∀ (bs : List Nat), (∀ x ∈ bs, x < 256) →
    b64decode (b64encode bs) = some bs
  | [], _ => rfl
  | [a], h => by
    have ha : a < 256 := h a (by simp)
    simp only [b64encode, b64decode]
    rw [b64charVal_b64char _ (by omega), b64charVal_b64char _ (by omega)]
    simp
    omega
  | [a, b], h => by
    have ha : a < 256 := h a (by simp)
    have hb : b < 256 := h b (by simp)
    simp only [b64encode, b64decode]
    rw [b64charVal_b64char _ (by omega), b64charVal_b64char _ (by omega),
      b64charVal_b64char _ (by omega)]
    simp [b64char_ne_pad]
    constructor
    · omega
    · omega
  | a :: b :: d :: rest, h => by
    have ha : a < 256 := h a (by simp)
    have hb : b < 256 := h b (by simp)
    have hd : d < 256 := h d (by simp)
    simp only [b64encode, b64decode]
    rw [b64charVal_b64char _ (by omega), b64charVal_b64char _ (by omega),
      b64charVal_b64char _ (by omega), b64charVal_b64char _ (by omega),
      b64decode_b64encode rest (fun x hx => h x (by simp [hx]))]
    simp [b64char_ne_pad]
    refine ⟨by omega, by omega, by omega⟩

theorem unsubst_roundtrip (l : List Char) (h : ∀ c ∈ l, c ∈ b64chars ∨ c = '=') :
    ((((((l.map substPlus).map substSlash).filter (fun c => !(c = '='))).map
      unsubDash).map unsubUnderscore))
      = l.filter (fun c => !(c = '=')) := by
  induction l with
  | nil => rfl
  | cons c rest ih =>
    have hc := h c (List.mem_cons_self c rest)
    have ihr := ih (fun d hd => h d (List.mem_cons_of_mem c hd))
    rcases hc with hmem | rfl
    · have hkey : ∀ d ∈ b64chars,
          unsubUnderscore (unsubDash (substSlash (substPlus d))) = d
          ∧ ¬(substSlash (substPlus d) = '=') ∧ ¬(d = '=') := by decide
      obtain ⟨hid, hne, hne'⟩ := hkey c hmem
      simp only [List.map_cons]
      rw [List.filter_cons_of_pos (by simp [hne]), List.filter_cons_of_pos (by simp [hne'])]
      simp only [List.map_cons, hid]
      rw [ihr]
    · have e1 : substPlus '=' = '=' := by decide
      have e2 : substSlash '=' = '=' := by decide
      simp only [List.map_cons, e1, e2]
      rw [List.filter_cons_of_neg (by simp), List.filter_cons_of_neg (by simp)]
      exact ihr

theorem unsubst_encodeUrl (bs : List Nat) :
    (((encodeUrl bs).map unsubDash).map unsubUnderscore)
      = (b64encode bs).filter (fun c => !(c = '=')) := by
  unfold encodeUrl
  exact unsubst_roundtrip (b64encode bs) (b64encode_mem bs)

theorem encodeUrl_chars (bs : List Nat) :
    ∀ c ∈ encodeUrl bs, ¬(c = '?') ∧ ¬(c = '&') := by
  intro c hc
  unfold encodeUrl at hc
  rw [List.mem_filter] at hc
  obtain ⟨hc1, hne⟩ := hc
  rw [List.mem_map] at hc1
  obtain ⟨c1, hc1, rfl⟩ := hc1
  rw [List.mem_map] at hc1
  obtain ⟨c0, hc0, rfl⟩ := hc1
  rcases b64encode_mem bs c0 hc0 with hm | rfl
  · have hkey : ∀ d ∈ b64chars,
        ¬(substSlash (substPlus d) = '?') ∧ ¬(substSlash (substPlus d) = '&') := by decide
    exact hkey c0 hm
  · exact absurd hne (by decide)

theorem pctDecode_of_no_pct (l : List Char) (h : ∀ c ∈ l, ¬(c = '%')) :
    pctDecode l = some l := by
  induction l with
  | nil => rfl
  | cons c rest ih =>
    have hrw : pctDecode (c :: rest) = (pctDecode rest).map (fun t => c :: t) := by
      rw [pctDecode.eq_def]
      simp only []
      rw [if_neg (h c (List.mem_cons_self c rest))]
    rw [hrw, ih (fun d hd => h d (List.mem_cons_of_mem c hd))]
    rfl

theorem b64encode_no_pct (bs : List Nat) : ∀ c ∈ b64encode bs, ¬(c = '%') := by
  intro c hc
  rcases b64encode_mem bs c hc with hm | rfl
  · have hkey : ∀ d ∈ b64chars, ¬(d = '%') := by decide
    exact hkey c hm
  · decide

/-- Claim C5: for every absolute URL whose scheme is http or https (modelled
as its UTF-8 byte sequence: every byte below 256 and the `jsUrlValid`
well-formedness test of the codec passing), decoding the fingerprint returns
the original URL: `decodeUrl (encodeUrl url) = some url`. -/
theorem decodeUrl_encodeUrl (bs : List Nat)
    (hbytes : ∀ x ∈ bs, x < 256) (hurl : jsUrlValid bs = true) :
    decodeUrl (encodeUrl bs) = some bs := by
  have htake1 : (encodeUrl bs).takeWhile (fun c => !(c = '?')) = encodeUrl bs :=
    List.takeWhile_eq_self_iff.mpr (fun c hc => by simp [(encodeUrl_chars bs c hc).1])
  have htake2 : (encodeUrl bs).takeWhile (fun c => !(c = '&')) = encodeUrl bs :=
    List.takeWhile_eq_self_iff.mpr (fun c hc => by simp [(encodeUrl_chars bs c hc).2])
  have hpad : padB64 ((b64encode bs).filter (fun c => !(c = '='))) = b64encode bs :=
    padB64_filter_b64encode bs
  have hpct : decodeURIComponentAttempt (b64encode bs) = b64encode bs := by
    unfold decodeURIComponentAttempt
    rw [pctDecode_of_no_pct (b64encode bs) (b64encode_no_pct bs)]
    rfl
  have hdec : b64decode (b64encode bs) = some bs := b64decode_b64encode bs hbytes
  have hstart : (startsWithBytes (strBytes "http://") bs
      || startsWithBytes (strBytes "https://") bs) = true := by
    unfold jsUrlValid at hurl
    by_cases h1 : startsWithBytes (strBytes "http://") bs = true
    · simp [h1]
    · rw [if_neg h1] at hurl
      by_cases h2 : startsWithBytes (strBytes "https://") bs = true
      · simp [h2]
      · rw [if_neg h2] at hurl
        exact absurd hurl (by simp)
  unfold decodeUrl
  simp only [htake1, htake2, unsubst_encodeUrl, hpad, hpct, hdec, hstart, hurl, if_true]

/-- Witness: the round-trip at a concrete URL. -/
theorem decodeUrl_encodeUrl_witness :
    decodeUrl (encodeUrl (strBytes "http://a.com/p")) = some (strBytes "http://a.com/p") :=
  decodeUrl_encodeUrl (strBytes "http://a.com/p") (by decide) (by decide)

/-! ### JS Map model lemmas -/

theorem mapGet_nil {α β : Type} [DecidableEq α] (k : α) :
    mapGet ([] : List (α × β)) k = none := rfl

theorem mapGet_cons {α β : Type} [DecidableEq α] (p : α × β) (m : List (α × β)) (k : α) :
    mapGet (p :: m) k = if p.1 = k then some p.2 else mapGet m k := by
  by_cases h : p.1 = k <;> simp [mapGet, List.find?, h]

theorem mapGet_mapSet_self {α β : Type} [DecidableEq α] (m : List (α × β)) (k : α) (v : β) :
    mapGet (mapSet m k v) k = some v := by
  induction m with
  | nil => simp [mapSet, mapGet_cons]
  | cons p rest ih =>
    by_cases h : p.1 = k
    · simp [mapSet, h, mapGet_cons]
    · simp [mapSet, h, mapGet_cons, ih]

theorem mapGet_mapSet_ne {α β : Type} [DecidableEq α] (m : List (α × β)) (k k' : α) (v : β)
    (h : k' ≠ k) : mapGet (mapSet m k v) k' = mapGet m k' := by
  have hk : ¬(k = k') := fun hh => h hh.symm
  induction m with
  | nil => simp [mapSet, mapGet_cons, mapGet_nil, hk]
  | cons p rest ih =>
    by_cases hp : p.1 = k
    · subst hp
      simp [mapSet, mapGet_cons, hk]
    · simp only [mapSet, hp, if_false, mapGet_cons, ih]

theorem mapGet_mapDel_self {α β : Type} [DecidableEq α] (m : List (α × β)) (k : α) :
    mapGet (mapDel m k) k = none := by
  induction m with
  | nil => rfl
  | cons p rest ih =>
    by_cases h : p.1 = k
    · rw [mapDel, List.filter_cons_of_neg (by simp [h])]
      exact ih
    · rw [mapDel, List.filter_cons_of_pos (by simp [h]), mapGet_cons, if_neg h]
      exact ih

theorem mapGet_mapDel_ne {α β : Type} [DecidableEq α] (m : List (α × β)) (k k' : α)
    (h : k' ≠ k) : mapGet (mapDel m k) k' = mapGet m k' := by
  induction m with
  | nil => rfl
  | cons p rest ih =>
    by_cases hp : p.1 = k
    · rw [mapDel, List.filter_cons_of_neg (by simp [hp]), mapGet_cons,
        if_neg (by rw [hp]; exact fun hh => h hh.symm)]
      exact ih
    · rw [mapDel, List.filter_cons_of_pos (by simp [hp]), mapGet_cons, mapGet_cons]
      by_cases hk' : p.1 = k'
      · rw [if_pos hk', if_pos hk']
      · rw [if_neg hk', if_neg hk']
        exact ih

theorem mapGet_filter_of_none {α β : Type} [DecidableEq α] (m : List (α × β))
    (f : α × β → Bool) (k : α) (h : mapGet m k = none) :
    mapGet (m.filter f) k = none := by
  induction m with
  | nil => rfl
  | cons p rest ih =>
    rw [mapGet_cons] at h
    by_cases hp : p.1 = k
    · rw [if_pos hp] at h
      exact absurd h (by simp)
    · rw [if_neg hp] at h
      by_cases hf : f p
      · rw [List.filter_cons_of_pos hf, mapGet_cons, if_neg hp]
        exact ih h
      · rw [List.filter_cons_of_neg hf]
        exact ih h

theorem mapGet_filter_some {α β : Type} [DecidableEq α] (m : List (α × β))
    (f : α × β → Bool) (k : α) (v : β) (h : mapGet (m.filter f) k = some v) :
    f (k, v) = true := by
  induction m with
  | nil => exact absurd h (by simp [mapGet_nil])
  | cons p rest ih =>
    by_cases hf : f p
    · rw [List.filter_cons_of_pos hf, mapGet_cons] at h
      by_cases hp : p.1 = k
      · rw [if_pos hp] at h
        have hv : p.2 = v := by injection h
        have hpkv : p = (k, v) := by
          cases p
          simp only at hp hv
          rw [hp, hv]
        rw [← hpkv]
        exact hf
      · rw [if_neg hp] at h
        exact ih h
    · rw [List.filter_cons_of_neg hf] at h
      exact ih h

theorem mapGet_mapDel_of_none {α β : Type} [DecidableEq α] (m : List (α × β)) (k t : α)
    (h : mapGet m t = none) : mapGet (mapDel m k) t = none := by
  by_cases ht : t = k
  · rw [ht]; exact mapGet_mapDel_self m k
  · rw [mapGet_mapDel_ne m k t ht]; exact h

theorem mapGet_mapSet_of_none {α β : Type} [DecidableEq α] (m : List (α × β)) (k t : α)
    (v : β) (h : mapGet m t = none) (ht : t ≠ k) : mapGet (mapSet m k v) t = none := by
  rw [mapGet_mapSet_ne m k t v ht]; exact h

/-! ### Structural lemmas about the broker state functions -/

theorem getBrowserById_id (s : ServerState) (i : Nat) (b : Browser)
    (h : getBrowserById s i = some b) : b.id = i := by
  have := List.find?_some h
  exact of_decide_eq_true this

theorem find?_map_idPreserving (f : Browser → Browser) (hf : ∀ b, (f b).id = b.id)
    (l : List Browser) (i j : Nat) :
    (l.map (fun b => if b.id = i then f b else b)).find? (fun b => decide (b.id = j))
      = (l.find? (fun b => decide (b.id = j))).map (fun b => if b.id = i then f b else b) := by
  induction l with
  | nil => rfl
  | cons b rest ih =>
    have hid : (decide ((if b.id = i then f b else b).id = j)) = decide (b.id = j) := by
      by_cases hbi : b.id = i
      · rw [if_pos hbi, hf b]
      · rw [if_neg hbi]
    simp only [List.map_cons, List.find?]
    rw [hid]
    by_cases hj : b.id = j
    · simp [hj]
    · simp [hj, ih]

theorem getBrowserById_updateBrowser (s : ServerState) (i j : Nat)
    (f : Browser → Browser) (hf : ∀ b, (f b).id = b.id) :
    getBrowserById (updateBrowser s i f) j
      = (getBrowserById s j).map (fun b => if b.id = i then f b else b) := by
  unfold getBrowserById updateBrowser
  exact find?_map_idPreserving f hf s.browsers i j

theorem findBrowserByClientId_state (s : ServerState) (c : String) :
    ∃ cs, (findBrowserByClientId s c).2 = { s with clientSessions := cs } := by
  rcases hm : mapGet s.clientSessions c with _ | bid
  · exact ⟨s.clientSessions, by unfold findBrowserByClientId; simp only [hm]⟩
  · rcases hb : getBrowserById s bid with _ | b
    · exact ⟨mapDel s.clientSessions c,
        by unfold findBrowserByClientId; simp only [hm, hb]⟩
    · by_cases h : b.inUse = true ∧ b.clientId = some c
      · exact ⟨s.clientSessions,
          by unfold findBrowserByClientId; simp only [hm, hb, if_pos h]⟩
      · exact ⟨mapDel s.clientSessions c,
          by unfold findBrowserByClientId; simp only [hm, hb, if_neg h]⟩

theorem syncBrowserToFirebase_state (s : ServerState) (i : Nat) :
    ∃ m, syncBrowserToFirebase s i = { s with mirror := m } := by
  unfold syncBrowserToFirebase
  cases getBrowserById s i with
  | none => exact ⟨s.mirror, rfl⟩
  | some b => exact ⟨_, rfl⟩

/-! ### C3: release cascade -/

/-- The session-record deletion of the release loop removes the only matching
record: when at most one session record references the slot, none remains. -/
theorem deleteFirstSessionFor_complete (bid : Nat) :
    ∀ (l : List (String × SessionRec)),
    l.countP (fun p => decide (p.2.browserId = bid)) ≤ 1 →
    ∀ p ∈ deleteFirstSessionFor bid l, ¬(p.2.browserId = bid)
  | [], _, p, hp => by simp [deleteFirstSessionFor] at hp
  | q :: rest, hcount, p, hp => by
    by_cases hq : q.2.browserId = bid
    · rw [deleteFirstSessionFor, if_pos hq] at hp
      intro hpb
      have h2 : 2 ≤ (q :: rest).countP (fun p => decide (p.2.browserId = bid)) := by
        rw [List.countP_cons_of_pos _ _ (by simpa using hq)]
        have : 0 < rest.countP (fun p => decide (p.2.browserId = bid)) :=
          List.countP_pos_iff.mpr ⟨p, hp, by simpa using hpb⟩
        omega
      omega
    · rw [deleteFirstSessionFor, if_neg hq] at hp
      rcases List.mem_cons.mp hp with rfl | hp'
      · exact hq
      · have hc' : rest.countP (fun p => decide (p.2.browserId = bid)) ≤ 1 := by
          rw [List.countP_cons_of_neg _ _ (by simpa using hq)] at hcount
          exact hcount
        exact deleteFirstSessionFor_complete bid rest hc' p hp'

/-- Claim C3 (amended): releasing an in-use slot removes its client mapping,
its cookie-token mapping in both directions, every outstanding URL token of
the slot, and — when the slot has at most one session record (duplicates can
accumulate from repeated request-browser calls) — its session record; it marks
the slot free, writes an `inUse = false` tombstone to the state mirror, and
afterwards the released `cookie_token` grants access to no slot. -/
theorem doReleaseBrowser_clears (s : ServerState) (bid : Nat) (b : Browser) (ck : String)
    (hb : getBrowserById s bid = some b) (hin : b.inUse = true)
    (hck : mapGet s.browserTokens bid = some ck) :
    (∀ cid, b.clientId = some cid →
      mapGet (doReleaseBrowser s bid).clientSessions cid = none)
    ∧ mapGet (doReleaseBrowser s bid).browserTokens bid = none
    ∧ mapGet (doReleaseBrowser s bid).tokenToBrowser ck = none
    ∧ (∀ t e, mapGet (doReleaseBrowser s bid).urlTokens t = some e → ¬(e.browserId = bid))
    ∧ (∃ b', getBrowserById (doReleaseBrowser s bid) bid = some b' ∧ b'.inUse = false)
    ∧ (∃ m, mapGet (doReleaseBrowser s bid).mirror bid = some m ∧ m.inUse = false)
    ∧ (s.sessions.countP (fun p => decide (p.2.browserId = bid)) ≤ 1 →
        ∀ p ∈ (doReleaseBrowser s bid).sessions, ¬(p.2.browserId = bid))
    ∧ (∀ i, validateBrowserAccess (doReleaseBrowser s bid) (some ck) i = false) := by
  have hbid : b.id = bid := getBrowserById_id s bid b hb
  have key : doReleaseBrowser s bid = syncBrowserToFirebase
      { updateBrowser
          { s with
              sessions := deleteFirstSessionFor bid s.sessions,
              clientSessions :=
                (match b.clientId with
                 | some cid => mapDel s.clientSessions cid
                 | none => s.clientSessions),
              browserTokens := mapDel s.browserTokens bid,
              tokenToBrowser := mapDel s.tokenToBrowser ck,
              urlTokens := s.urlTokens.filter (fun p => !decide (p.2.browserId = bid)) }
          bid
          (fun br => { br with inUse := false, userId := none, sessionId := none,
                               clientId := none, lastHeartbeat := none })
        with activeConnections := mapDel s.activeConnections bid }
      bid := by
    unfold doReleaseBrowser
    simp only [hb]
    rw [if_neg (by simp [hin])]
    rcases hcid : b.clientId with _ | cid <;>
      simp only [hbid, hcid, hck, updateBrowser]
  set f : Browser → Browser := (fun br =>
    { br with inUse := false, userId := none, sessionId := none,
              clientId := none, lastHeartbeat := none }) with hf_def
  have hf : ∀ br, (f br).id = br.id := fun br => rfl
  set inner : ServerState :=
    { s with
        sessions := deleteFirstSessionFor bid s.sessions,
        clientSessions :=
          (match b.clientId with
           | some cid => mapDel s.clientSessions cid
           | none => s.clientSessions),
        browserTokens := mapDel s.browserTokens bid,
        tokenToBrowser := mapDel s.tokenToBrowser ck,
        urlTokens := s.urlTokens.filter (fun p => !decide (p.2.browserId = bid)) }
    with hinner_def
  set mid : ServerState :=
    { updateBrowser inner bid f with activeConnections := mapDel s.activeConnections bid }
    with hmid_def
  have hmidb : getBrowserById mid bid = some (f b) := by
    have h1 : getBrowserById mid bid = getBrowserById (updateBrowser inner bid f) bid := rfl
    have h2 : getBrowserById inner bid = some b := hb
    rw [h1, getBrowserById_updateBrowser inner bid bid f hf, h2]
    simp [hbid]
  have hsync : doReleaseBrowser s bid
      = { mid with mirror :=
          (mapSet mid.mirror bid
            (MirrorEntry.mk (f b).inUse (f b).clientId (f b).sessionId
              (f b).lastUsed (f b).lastHeartbeat)) } := by
    rw [key]
    show syncBrowserToFirebase mid bid = _
    unfold syncBrowserToFirebase
    rw [hmidb]
  have hcs : (doReleaseBrowser s bid).clientSessions
      = (match b.clientId with
         | some cid => mapDel s.clientSessions cid
         | none => s.clientSessions) := by rw [hsync]; rfl
  have hbt : (doReleaseBrowser s bid).browserTokens = mapDel s.browserTokens bid := by
    rw [hsync]; rfl
  have htb : (doReleaseBrowser s bid).tokenToBrowser = mapDel s.tokenToBrowser ck := by
    rw [hsync]; rfl
  have hut : (doReleaseBrowser s bid).urlTokens
      = s.urlTokens.filter (fun p => !decide (p.2.browserId = bid)) := by
    rw [hsync]; rfl
  have hsess : (doReleaseBrowser s bid).sessions = deleteFirstSessionFor bid s.sessions := by
    rw [hsync]; rfl
  refine ⟨?_, ?_, ?_, ?_, ?_, ?_, ?_, ?_⟩
  · intro cid hcid
    rw [hcs, hcid]
    exact mapGet_mapDel_self s.clientSessions cid
  · rw [hbt]; exact mapGet_mapDel_self s.browserTokens bid
  · rw [htb]; exact mapGet_mapDel_self s.tokenToBrowser ck
  · intro t e he
    rw [hut] at he
    have := mapGet_filter_some _ _ _ _ he
    simpa using this
  · refine ⟨f b, ?_, rfl⟩
    have : getBrowserById (doReleaseBrowser s bid) bid = getBrowserById mid bid := by
      rw [hsync]; rfl
    rw [this, hmidb]
  · refine ⟨MirrorEntry.mk (f b).inUse (f b).clientId (f b).sessionId
      (f b).lastUsed (f b).lastHeartbeat, ?_, rfl⟩
    rw [hsync]
    exact mapGet_mapSet_self _ _ _
  · intro hcount p hp
    rw [hsess] at hp
    exact deleteFirstSessionFor_complete bid s.sessions hcount p hp
  · intro i
    simp only [validateBrowserAccess]
    rw [htb, mapGet_mapDel_self]
    simp

/-- Claim C3, counterexample: after two `request-browser` calls for the same
client (the second taking the existing-session path, which adds a second
session record), releasing the slot removes only the first matching record —
a session record referencing the released slot remains. -/
theorem doReleaseBrowser_leaves_session_record :
    mapGet (doReleaseBrowser
        ((assignBrowser ((assignBrowser initialServerState "sess_1" "client-abcdefgh"
            "ck1" "ut1" 1000).2) "sess_2" "client-abcdefgh" "ck2" "ut2" 2000).2) 1).sessions
      "sess_2" = some (SessionRec.mk 1 "client-abcdefgh" 2000 2000) := by
  decide

/-- Witness for the amended C3 theorem at a concrete assigned state. -/
theorem doReleaseBrowser_clears_witness :
    mapGet (doReleaseBrowser
        ((assignBrowser initialServerState "sess_1" "client-abcdefgh"
          "ck1" "ut1" 1000).2) 1).tokenToBrowser "ck1" = none
    ∧ (∃ m, mapGet (doReleaseBrowser
        ((assignBrowser initialServerState "sess_1" "client-abcdefgh"
          "ck1" "ut1" 1000).2) 1).mirror 1 = some m ∧ m.inUse = false) := by
  have h := doReleaseBrowser_clears
    ((assignBrowser initialServerState "sess_1" "client-abcdefgh" "ck1" "ut1" 1000).2) 1
    (Browser.mk 1 "localhost" 6901 4901 true (some 1000) (some 1000)
      (some "sess_1") (some "sess_1") (some "client-abcdefgh")) "ck1"
    (by decide) (by decide) (by decide)
  exact ⟨h.2.2.1, h.2.2.2.2.2.1⟩

/-! ### C4 and C9: one slot per client across request-browser calls -/

theorem getBrowserById_eq_of_browsers (s1 s2 : ServerState) (i : Nat)
    (h : s1.browsers = s2.browsers) : getBrowserById s1 i = getBrowserById s2 i := by
  unfold getBrowserById
  rw [h]

theorem updateBrowser_browserTokens (s : ServerState) (i : Nat) (f : Browser → Browser) :
    (updateBrowser s i f).browserTokens = s.browserTokens := rfl

theorem updateBrowser_clientSessions (s : ServerState) (i : Nat) (f : Browser → Browser) :
    (updateBrowser s i f).clientSessions = s.clientSessions := rfl

theorem updateBrowser_tokenToBrowser (s : ServerState) (i : Nat) (f : Browser → Browser) :
    (updateBrowser s i f).tokenToBrowser = s.tokenToBrowser := rfl

theorem updateBrowser_urlTokens (s : ServerState) (i : Nat) (f : Browser → Browser) :
    (updateBrowser s i f).urlTokens = s.urlTokens := rfl

theorem updateBrowser_sessions (s : ServerState) (i : Nat) (f : Browser → Browser) :
    (updateBrowser s i f).sessions = s.sessions := rfl

theorem syncBrowserToFirebase_browserTokens (s : ServerState) (i : Nat) :
    (syncBrowserToFirebase s i).browserTokens = s.browserTokens := by
  obtain ⟨m, hm⟩ := syncBrowserToFirebase_state s i
  rw [hm]

theorem syncBrowserToFirebase_clientSessions (s : ServerState) (i : Nat) :
    (syncBrowserToFirebase s i).clientSessions = s.clientSessions := by
  obtain ⟨m, hm⟩ := syncBrowserToFirebase_state s i
  rw [hm]

theorem syncBrowserToFirebase_browsers (s : ServerState) (i : Nat) :
    (syncBrowserToFirebase s i).browsers = s.browsers := by
  obtain ⟨m, hm⟩ := syncBrowserToFirebase_state s i
  rw [hm]

theorem createSessionTokens_browsers (s : ServerState) (bid : Nat) (ck ut : String)
    (n : Nat) : (createSessionTokens s bid ck ut n).browsers = s.browsers := by
  unfold createSessionTokens
  cases mapGet s.browserTokens bid <;> rfl

theorem createSessionTokens_clientSessions (s : ServerState) (bid : Nat) (ck ut : String)
    (n : Nat) : (createSessionTokens s bid ck ut n).clientSessions = s.clientSessions := by
  unfold createSessionTokens
  cases mapGet s.browserTokens bid <;> rfl

theorem createSessionTokens_browserTokens (s : ServerState) (bid : Nat) (ck ut : String)
    (n : Nat) : (createSessionTokens s bid ck ut n).browserTokens
      = mapSet s.browserTokens bid ck := by
  unfold createSessionTokens
  cases mapGet s.browserTokens bid <;> rfl

/-- A browser found in a pool with distinct slot ids is found again by id. -/
theorem find?_id_of_nodup : ∀ (l : List Browser) (b : Browser),
    (l.map (fun x => x.id)).Nodup → b ∈ l →
    l.find? (fun x => decide (x.id = b.id)) = some b
  | [], b, _, hmem => absurd hmem (List.not_mem_nil b)
  | a :: rest, b, hnodup, hmem => by
    rcases List.mem_cons.mp hmem with rfl | hmem2
    · simp [List.find?]
    · have hrest : (rest.map (fun x => x.id)).Nodup := by
        rw [List.map_cons, List.nodup_cons] at hnodup
        exact hnodup.2
      have hna : ¬(a.id = b.id) := by
        intro he
        rw [List.map_cons, List.nodup_cons] at hnodup
        exact hnodup.1 (he ▸ List.mem_map_of_mem (fun x => x.id) hmem2)
      have hdec : (decide (a.id = b.id)) = false := decide_eq_false hna
      simp only [List.find?, hdec]
      exact find?_id_of_nodup rest b hrest hmem2

/-- Characterisation of a successful `findBrowserByClientId`. -/
theorem findBrowserByClientId_some (s s2 : ServerState) (c : String) (b : Browser)
    (h : findBrowserByClientId s c = (some b, s2)) :
    s2 = s ∧ b.inUse = true ∧ b.clientId = some c
      ∧ mapGet s.clientSessions c = some b.id ∧ getBrowserById s b.id = some b := by
  unfold findBrowserByClientId at h
  rcases hm : mapGet s.clientSessions c with _ | bid
  · simp only [hm] at h
    injection h with h1 h2
    exact absurd h1 (by simp)
  · simp only [hm] at h
    rcases hb : getBrowserById s bid with _ | b0
    · simp only [hb] at h
      injection h with h1 h2
      exact absurd h1 (by simp)
    · simp only [hb] at h
      by_cases hcond : b0.inUse = true ∧ b0.clientId = some c
      · rw [if_pos hcond] at h
        injection h with h1 h2
        have hb0 : b0 = b := by injection h1
        subst hb0
        have hbid : b0.id = bid := getBrowserById_id s bid b0 hb
        refine ⟨h2.symm, hcond.1, hcond.2, ?_, ?_⟩
        · rw [hbid]
        · rw [hbid]; exact hb
      · rw [if_neg hcond] at h
        injection h with h1 h2
        exact absurd h1 (by simp)

/-- Conversely, a live mapped browser is found with no state change. -/
theorem findBrowserByClientId_of (s : ServerState) (c : String) (b : Browser)
    (hm : mapGet s.clientSessions c = some b.id)
    (hb : getBrowserById s b.id = some b)
    (hin : b.inUse = true) (hcid : b.clientId = some c) :
    findBrowserByClientId s c = (some b, s) := by
  unfold findBrowserByClientId
  simp only [hm, hb]
  rw [if_pos ⟨hin, hcid⟩]

/-- The existing-session branch of `assignBrowser`: the stored cookie token and
the slot id are returned with a freshly minted URL token. -/
theorem assignBrowser_existing_run (s : ServerState) (sid c ck ut : String) (n : Nat)
    (b : Browser) (ck0 : String)
    (hfind : findBrowserByClientId s c = (some b, s))
    (hck : mapGet s.browserTokens b.id = some ck0) :
    (assignBrowser s sid c ck ut n).1 = some (AssignResult.mk b.id true ck0 (some ut)) := by
  unfold assignBrowser
  rw [hfind]
  simp only [syncBrowserToFirebase_browserTokens, updateBrowser_browserTokens, hck,
    createUrlToken]

/-- Post-state of any successful `assignBrowser` call: the client is mapped to
the returned slot, the slot is in use by this client, the returned cookie token
is the slot's stored cookie token, and the returned URL token is the fresh one. -/
theorem assignBrowser_post (s : ServerState) (sid c ck ut : String) (n : Nat)
    (r : AssignResult)
    (hnodup : (s.browsers.map (fun x => x.id)).Nodup) (hc : ¬(c = ""))
    (h : (assignBrowser s sid c ck ut n).1 = some r) :
    mapGet ((assignBrowser s sid c ck ut n).2).clientSessions c = some r.browserId
    ∧ (∃ b2, getBrowserById ((assignBrowser s sid c ck ut n).2) r.browserId = some b2
        ∧ b2.inUse = true ∧ b2.clientId = some c)
    ∧ mapGet ((assignBrowser s sid c ck ut n).2).browserTokens r.browserId
        = some r.cookieToken
    ∧ r.urlToken = some ut := by
  have hsAfact := findBrowserByClientId_state s c
  rcases hfind : findBrowserByClientId s c with ⟨ob, sA⟩
  rw [hfind] at hsAfact
  obtain ⟨csA, hsA0⟩ := hsAfact
  have hsA : sA = { s with clientSessions := csA } := hsA0
  rcases ob with _ | b
  · -- no live session for the client: the fresh-assignment branch
    rcases hav : findAvailableBrowser sA with _ | b
    · unfold assignBrowser at h
      rw [hfind] at h
      simp only [hav] at h
      exact absurd h (by simp)
    · have hmem : b ∈ s.browsers := by
        have := List.mem_of_find?_eq_some hav
        rw [hsA] at this
        exact this
      set fNew : Browser → Browser := (fun br =>
        { br with inUse := true, lastUsed := some n, lastHeartbeat := some n,
                  userId := some sid, sessionId := some sid, clientId := some c })
        with hfNew
      have key : assignBrowser s sid c ck ut n =
          (some (AssignResult.mk b.id false ck (some ut)),
           syncBrowserToFirebase (createSessionTokens
             { updateBrowser sA b.id fNew with
                 sessions := (mapSet (updateBrowser sA b.id fNew).sessions sid
                   (SessionRec.mk b.id c n n)),
                 clientSessions := (mapSet sA.clientSessions c b.id),
                 activeConnections := (mapSet sA.activeConnections b.id (ConnInfo.mk 0 none)) }
             b.id ck ut n) b.id) := by
        unfold assignBrowser
        rw [hfind]
        simp only [hav]
        rw [if_pos hc]
        rfl
      obtain rfl : r = AssignResult.mk b.id false ck (some ut) := by
        rw [key] at h
        exact (Option.some.inj h).symm
      have hstate : (assignBrowser s sid c ck ut n).2 =
          syncBrowserToFirebase (createSessionTokens
            { updateBrowser sA b.id fNew with
                sessions := (mapSet (updateBrowser sA b.id fNew).sessions sid
                  (SessionRec.mk b.id c n n)),
                clientSessions := (mapSet sA.clientSessions c b.id),
                activeConnections := (mapSet sA.activeConnections b.id (ConnInfo.mk 0 none)) }
            b.id ck ut n) b.id := by
        rw [key]
      refine ⟨?_, ?_, ?_, rfl⟩
      · rw [hstate, syncBrowserToFirebase_clientSessions, createSessionTokens_clientSessions]
        exact mapGet_mapSet_self _ _ _
      · refine ⟨fNew b, ?_, rfl, rfl⟩
        rw [hstate]
        rw [getBrowserById_eq_of_browsers _ (updateBrowser sA b.id fNew) _
          (by rw [syncBrowserToFirebase_browsers, createSessionTokens_browsers])]
        rw [getBrowserById_updateBrowser sA b.id b.id fNew (fun br => rfl)]
        have hgetA : getBrowserById sA b.id = some b := by
          unfold getBrowserById
          rw [hsA]
          exact find?_id_of_nodup s.browsers b hnodup hmem
        rw [hgetA]
        simp
      · rw [hstate, syncBrowserToFirebase_browserTokens, createSessionTokens_browserTokens]
        exact mapGet_mapSet_self _ _ _
  · -- the client already holds a slot: the existing-session branch
    obtain ⟨hsEq, hin, hcid, hmapc, hget⟩ := findBrowserByClientId_some s sA c b hfind
    rw [hsEq] at hfind
    set fHb : Browser → Browser := (fun br => { br with lastHeartbeat := some n }) with hfHb
    rcases hck0 : mapGet s.browserTokens b.id with _ | ck0
    · -- no stored cookie token: it is regenerated as the fresh ck
      have key : assignBrowser s sid c ck ut n =
          (some (AssignResult.mk b.id true ck (some ut)),
           { { syncBrowserToFirebase
                 { updateBrowser s b.id fHb with
                     sessions := (mapSet (updateBrowser s b.id fHb).sessions sid
                       (SessionRec.mk b.id c n n)) } b.id with
               browserTokens := (mapSet (syncBrowserToFirebase
                 { updateBrowser s b.id fHb with
                     sessions := (mapSet (updateBrowser s b.id fHb).sessions sid
                       (SessionRec.mk b.id c n n)) } b.id).browserTokens b.id ck),
               tokenToBrowser := (mapSet (syncBrowserToFirebase
                 { updateBrowser s b.id fHb with
                     sessions := (mapSet (updateBrowser s b.id fHb).sessions sid
                       (SessionRec.mk b.id c n n)) } b.id).tokenToBrowser ck b.id) }
             with urlTokens := (mapSet (syncBrowserToFirebase
               { updateBrowser s b.id fHb with
                   sessions := (mapSet (updateBrowser s b.id fHb).sessions sid
                     (SessionRec.mk b.id c n n)) } b.id).urlTokens ut
               (TokenEntry.mk b.id ck n)) }) := by
        unfold assignBrowser createUrlToken
        rw [hfind]
        simp only [syncBrowserToFirebase_browserTokens, updateBrowser_browserTokens, hck0,
          mapGet_mapSet_self]
      obtain rfl : r = AssignResult.mk b.id true ck (some ut) := by
        rw [key] at h
        exact (Option.some.inj h).symm
      refine ⟨?_, ?_, ?_, rfl⟩
      · rw [key]
        show mapGet (syncBrowserToFirebase _ b.id).clientSessions c = some b.id
        rw [syncBrowserToFirebase_clientSessions, updateBrowser_clientSessions]
        exact hmapc
      · refine ⟨fHb b, ?_, hin, hcid⟩
        rw [key]
        show getBrowserById _ b.id = some (fHb b)
        rw [getBrowserById_eq_of_browsers _ (updateBrowser s b.id fHb) _
          (by rw [syncBrowserToFirebase_browsers])]
        rw [getBrowserById_updateBrowser s b.id b.id fHb (fun br => rfl), hget]
        simp
      · rw [key]
        show mapGet (mapSet _ b.id ck) b.id = some ck
        exact mapGet_mapSet_self _ _ _
    · -- stored cookie token preserved
      have key : assignBrowser s sid c ck ut n =
          (some (AssignResult.mk b.id true ck0 (some ut)),
           { syncBrowserToFirebase
               { updateBrowser s b.id fHb with
                   sessions := (mapSet (updateBrowser s b.id fHb).sessions sid
                     (SessionRec.mk b.id c n n)) } b.id
             with urlTokens := (mapSet (syncBrowserToFirebase
               { updateBrowser s b.id fHb with
                   sessions := (mapSet (updateBrowser s b.id fHb).sessions sid
                     (SessionRec.mk b.id c n n)) } b.id).urlTokens ut
               (TokenEntry.mk b.id ck0 n)) }) := by
        unfold assignBrowser createUrlToken
        rw [hfind]
        simp only [syncBrowserToFirebase_browserTokens, updateBrowser_browserTokens, hck0]
      obtain rfl : r = AssignResult.mk b.id true ck0 (some ut) := by
        rw [key] at h
        exact (Option.some.inj h).symm
      refine ⟨?_, ?_, ?_, rfl⟩
      · rw [key]
        show mapGet (syncBrowserToFirebase _ b.id).clientSessions c = some b.id
        rw [syncBrowserToFirebase_clientSessions, updateBrowser_clientSessions]
        exact hmapc
      · refine ⟨fHb b, ?_, hin, hcid⟩
        rw [key]
        show getBrowserById _ b.id = some (fHb b)
        rw [getBrowserById_eq_of_browsers _ (updateBrowser s b.id fHb) _
          (by rw [syncBrowserToFirebase_browsers])]
        rw [getBrowserById_updateBrowser s b.id b.id fHb (fun br => rfl), hget]
        simp
      · rw [key]
        show mapGet (syncBrowserToFirebase _ b.id).browserTokens b.id = some ck0
        rw [syncBrowserToFirebase_browserTokens, updateBrowser_browserTokens]
        exact hck0

/-- Shared: a second `assignBrowser` call for the same client while the session
is live takes the existing-session branch, returning the same slot, the stored
cookie token and a fresh URL token. -/
theorem assignBrowser_second_call (s : ServerState) (sid1 sid2 c ck1 ut1 ck2 ut2 : String)
    (n1 n2 : Nat) (r1 : AssignResult)
    (hnodup : (s.browsers.map (fun x => x.id)).Nodup) (hc : ¬(c = ""))
    (h1 : (assignBrowser s sid1 c ck1 ut1 n1).1 = some r1) :
    (assignBrowser ((assignBrowser s sid1 c ck1 ut1 n1).2) sid2 c ck2 ut2 n2).1
      = some (AssignResult.mk r1.browserId true r1.cookieToken (some ut2))
    ∧ r1.urlToken = some ut1 := by
  obtain ⟨hcs, ⟨b2, hb2, hin2, hcid2⟩, hbt, hut⟩ :=
    assignBrowser_post s sid1 c ck1 ut1 n1 r1 hnodup hc h1
  have hbid2 : b2.id = r1.browserId := getBrowserById_id _ _ _ hb2
  have hfind2 : findBrowserByClientId ((assignBrowser s sid1 c ck1 ut1 n1).2) c
      = (some b2, (assignBrowser s sid1 c ck1 ut1 n1).2) := by
    apply findBrowserByClientId_of _ c b2 _ _ hin2 hcid2
    · rw [hbid2]; exact hcs
    · rw [hbid2]; exact hb2
  have hrun := assignBrowser_existing_run ((assignBrowser s sid1 c ck1 ut1 n1).2)
    sid2 c ck2 ut2 n2 b2 r1.cookieToken hfind2 (by rw [hbid2]; exact hbt)
  rw [hbid2] at hrun
  exact ⟨hrun, hut⟩

/-- Claim C4: two consecutive `request-browser` calls carrying the same
client id while the session is live observe exactly one slot assignment — the
second call returns the same slot id and the preserved cookie token, and each
call returns the freshly minted URL token of that call, the two being distinct
(the freshly drawn random tokens are distinct by hypothesis).  Concurrent calls
serialize on the single-threaded event loop: `assignBrowser` is synchronous,
so interleaving reduces to consecutive execution. -/
theorem assignBrowser_same_client (s : ServerState) (sid1 sid2 c ck1 ut1 ck2 ut2 : String)
    (n1 n2 : Nat) (r1 : AssignResult)
    (hnodup : (s.browsers.map (fun x => x.id)).Nodup) (hc : ¬(c = ""))
    (hfresh : ¬(ut2 = ut1))
    (h1 : (assignBrowser s sid1 c ck1 ut1 n1).1 = some r1) :
    ∃ r2, (assignBrowser ((assignBrowser s sid1 c ck1 ut1 n1).2) sid2 c ck2 ut2 n2).1
        = some r2
      ∧ r2.browserId = r1.browserId
      ∧ r2.cookieToken = r1.cookieToken
      ∧ r1.urlToken = some ut1
      ∧ r2.urlToken = some ut2
      ∧ ¬(r2.urlToken = r1.urlToken) := by
  obtain ⟨hrun, hut1⟩ :=
    assignBrowser_second_call s sid1 sid2 c ck1 ut1 ck2 ut2 n1 n2 r1 hnodup hc h1
  refine ⟨_, hrun, rfl, rfl, hut1, rfl, ?_⟩
  rw [hut1]
  simp [hfresh]

/-- Witness for C4 at a concrete pair of calls on the initial pool. -/
theorem assignBrowser_same_client_witness :
    ((assignBrowser ((assignBrowser initialServerState "sess_1" "client-abcdefgh"
        "ck1" "ut1" 1000).2) "sess_2" "client-abcdefgh" "ck2" "ut2" 2000).1.map
      (fun r2 => (r2.browserId, r2.cookieToken, r2.urlToken)))
      = some (1, "ck1", some "ut2") := by
  obtain ⟨r2, hrun, hb, hck, _, hut, _⟩ :=
    assignBrowser_same_client initialServerState "sess_1" "sess_2" "client-abcdefgh"
      "ck1" "ut1" "ck2" "ut2" 1000 2000 (AssignResult.mk 1 false "ck1" (some "ut1"))
      (by decide) (by decide) (by decide) (by decide)
  rw [hrun]
  simp only [Option.map_some']
  rw [hb, hck, hut]

/-- Derived client identities are never the empty string (so the broker always
records the `clientSessions` mapping for them). -/
theorem deriveAutoClientId_ne_empty (ip ua : String) : ¬(deriveAutoClientId ip ua = "") := by
  intro h
  unfold deriveAutoClientId at h
  have hdata := congrArg String.data h
  rw [String.data_append] at hdata
  simp at hdata

/-- Claim C9: a request-browser call whose clientId is missing or shorter than
10 characters derives the client identity deterministically from the source IP
and the first 50 characters of the User-Agent; two such requests with the same
address and agent map to the same identity, and the second call therefore
joins the first call's session (same slot, existing = true). -/
theorem requestBrowser_auto_clientId
    (cid1 cid2 xff ra ua : Option String)
    (hinv1 : clientIdInvalid cid1 = true) (hinv2 : clientIdInvalid cid2 = true)
    (s : ServerState) (sid1 sid2 ck1 ut1 ck2 ut2 : String) (n1 n2 : Nat) (r1 : AssignResult)
    (hnodup : (s.browsers.map (fun x => x.id)).Nodup)
    (h1 : (assignBrowser s sid1 (effectiveClientId cid1 xff ra ua) ck1 ut1 n1).1 = some r1) :
    effectiveClientId cid1 xff ra ua = effectiveClientId cid2 xff ra ua
    ∧ effectiveClientId cid1 xff ra ua
        = deriveAutoClientId (xff.getD (ra.getD "unknown")) (ua.getD "unknown")
    ∧ (assignBrowser ((assignBrowser s sid1 (effectiveClientId cid1 xff ra ua) ck1 ut1 n1).2)
        sid2 (effectiveClientId cid2 xff ra ua) ck2 ut2 n2).1
      = some (AssignResult.mk r1.browserId true r1.cookieToken (some ut2)) := by
  have he1 : effectiveClientId cid1 xff ra ua
      = deriveAutoClientId (xff.getD (ra.getD "unknown")) (ua.getD "unknown") := by
    unfold effectiveClientId
    rw [if_pos hinv1]
  have he2 : effectiveClientId cid2 xff ra ua
      = deriveAutoClientId (xff.getD (ra.getD "unknown")) (ua.getD "unknown") := by
    unfold effectiveClientId
    rw [if_pos hinv2]
  have hc : ¬(effectiveClientId cid1 xff ra ua = "") := by
    rw [he1]
    exact deriveAutoClientId_ne_empty _ _
  obtain ⟨hrun, _⟩ := assignBrowser_second_call s sid1 sid2
    (effectiveClientId cid1 xff ra ua) ck1 ut1 ck2 ut2 n1 n2 r1 hnodup hc h1
  refine ⟨he1.trans he2.symm, he1, ?_⟩
  rw [he2, ← he1]
  exact hrun

/-- Witness for C9: a missing clientId and a too-short clientId from the same
address and agent join the same session. -/
theorem requestBrowser_auto_clientId_witness :
    effectiveClientId none none (some "10.0.0.9") (some "AgentX")
      = effectiveClientId (some "short") none (some "10.0.0.9") (some "AgentX")
    ∧ (assignBrowser ((assignBrowser initialServerState "sess_1"
        (effectiveClientId none none (some "10.0.0.9") (some "AgentX")) "ck1" "ut1" 1000).2)
        "sess_2" (effectiveClientId (some "short") none (some "10.0.0.9") (some "AgentX"))
        "ck2" "ut2" 2000).1
      = some (AssignResult.mk 1 true "ck1" (some "ut2")) := by
  have h := requestBrowser_auto_clientId none (some "short") none (some "10.0.0.9")
    (some "AgentX") (by decide) (by decide) initialServerState "sess_1" "sess_2"
    "ck1" "ut1" "ck2" "ut2" 1000 2000 (AssignResult.mk 1 false "ck1" (some "ut1"))
    (by decide) (by decide)
  exact ⟨h.1, h.2.2⟩

/-! ### C10: URL token on the wrong slot -/

/-- Claim C10: presenting a url_token on the path of a slot other than the one
it was minted for is rejected without consuming the token — the whole state is
unchanged — and the same token still grants access (exactly once: it is
consumed) on its own slot. -/
theorem urlToken_wrong_slot (s : ServerState) (p : String) (i j : Nat) (restJ : String)
    (t : String) (e : TokenEntry) (bi bj : Browser) (cj : Option String)
    (hp : parseBrowserPath p = some (j, restJ))
    (ht : mapGet s.urlTokens t = some e) (hi : e.browserId = i) (hij : ¬(j = i))
    (hbj : getBrowserById s j = some bj)
    (hbi : getBrowserById s i = some bi)
    (hcj : validateBrowserAccess s cj j = false) :
    browserHttpAccess s p cj (some t) = (AccessOutcome.denied, s)
    ∧ (∀ p2 restI c2, parseBrowserPath p2 = some (i, restI) →
        validateBrowserAccess s c2 i = false →
        (browserHttpAccess s p2 c2 (some t)).1 = AccessOutcome.granted (some e.cookieToken)
        ∧ mapGet ((browserHttpAccess s p2 c2 (some t)).2).urlTokens t = none) := by
  have hbjid : bj.id = j := getBrowserById_id s j bj hbj
  have hbiid : bi.id = i := getBrowserById_id s i bi hbi
  constructor
  · unfold browserHttpAccess
    simp only [hp, hbj, ht]
    rw [if_neg (by rw [hbjid]; simp [hcj])]
    rw [if_neg (show ¬(e.browserId = bj.id) by
      rw [hi, hbjid]; exact fun hh => hij hh.symm)]
  · intro p2 restI c2 hp2 hc2
    have hred : browserHttpAccess s p2 c2 (some t)
        = (AccessOutcome.granted (some e.cookieToken),
           { s with urlTokens := mapDel s.urlTokens t }) := by
      unfold browserHttpAccess
      simp only [hp2, hbi, ht]
      rw [if_neg (by rw [hbiid]; simp [hc2])]
      rw [if_pos (show e.browserId = bi.id by rw [hi, hbiid])]
    rw [hred]
    exact ⟨rfl, mapGet_mapDel_self _ _⟩

/-- Witness for C10: the token of slot 1 presented on slot 2's path is denied
with the state untouched, then still grants on slot 1. -/
theorem urlToken_wrong_slot_witness :
    browserHttpAccess
        ((assignBrowser initialServerState "sess_1" "client-abcdefgh" "ck1" "ut1" 1000).2)
        "/browser/2/" none (some "ut1")
      = (AccessOutcome.denied,
         (assignBrowser initialServerState "sess_1" "client-abcdefgh" "ck1" "ut1" 1000).2)
    ∧ (browserHttpAccess
        ((assignBrowser initialServerState "sess_1" "client-abcdefgh" "ck1" "ut1" 1000).2)
        "/browser/1/" none (some "ut1")).1 = AccessOutcome.granted (some "ck1") := by
  have h := urlToken_wrong_slot
    ((assignBrowser initialServerState "sess_1" "client-abcdefgh" "ck1" "ut1" 1000).2)
    "/browser/2/" 1 2 "/" "ut1" (TokenEntry.mk 1 "ck1" 1000)
    (Browser.mk 1 "localhost" 6901 4901 true (some 1000) (some 1000)
      (some "sess_1") (some "sess_1") (some "client-abcdefgh"))
    (Browser.mk 2 "localhost" 6902 4902 false none none none none none)
    none (by decide) (by decide) (by decide) (by decide) (by decide) (by decide) (by decide)
  refine ⟨h.1, ?_⟩
  exact (h.2 "/browser/1/" "/" none (by decide) (by decide)).1

/-! ### C2: WebSocket upgrade access control -/

/-- Claim C2, counterexample: an upgrade to the audio side-channel path of an
in-use slot is tunneled with no cookie at all — the handler skips
`validateBrowserAccess` for `/audio` and `/kasmaudio*` paths. -/
theorem upgradeAccess_audio_bypasses_cookie :
    upgradeAccess
        ((assignBrowser initialServerState "sess_1" "client-abcdefgh" "ck1" "ut1" 1000).2)
        "/browser/1/audio" none none = UpgradeOutcome.tunnel 1 true
    ∧ validateBrowserAccess
        ((assignBrowser initialServerState "sess_1" "client-abcdefgh" "ck1" "ut1" 1000).2)
        none 1 = false := by
  exact ⟨by decide, by decide⟩

/-- Claim C2 (amended): a WebSocket upgrade to `/browser/<slot>/<rest>` with a
non-audio `<rest>` is tunneled exactly when the session cookie maps to that
slot, and is refused (403) otherwise; the audio side-channel paths `/audio`
and `/kasmaudio*` are tunneled without any cookie validation. -/
theorem upgradeAccess_cookie_check (s : ServerState) (p : String) (i : Nat) (rest : String)
    (b : Browser) (cs : Option String) (cb : Option Nat)
    (hp : parseBrowserPath p = some (i, rest))
    (hb : getBrowserById s i = some b) :
    (isAudioWsPath rest = false →
      (upgradeAccess s p cs cb = UpgradeOutcome.tunnel i false
        ↔ validateBrowserAccess s cs i = true))
    ∧ (isAudioWsPath rest = false → validateBrowserAccess s cs i = false →
        upgradeAccess s p cs cb = UpgradeOutcome.denied)
    ∧ (isAudioWsPath rest = true → upgradeAccess s p cs cb = UpgradeOutcome.tunnel i true) := by
  have hbid : b.id = i := getBrowserById_id s i b hb
  have hun : upgradeAccess s p cs cb =
      (if !isAudioWsPath rest && !validateBrowserAccess s cs i then UpgradeOutcome.denied
       else UpgradeOutcome.tunnel i (isAudioWsPath rest)) := by
    unfold upgradeAccess
    simp only [hp, hb, hbid]
  refine ⟨?_, ?_, ?_⟩
  · intro ha
    rw [hun, ha]
    rcases hv : validateBrowserAccess s cs i with _ | _
    · simp
    · simp
  · intro ha hv
    rw [hun, ha, hv]
    rfl
  · intro ha
    rw [hun, ha]
    rfl

/-- Witness for the amended C2 theorem: with the slot's cookie the VNC upgrade
is tunneled; without it, it is refused. -/
theorem upgradeAccess_cookie_check_witness :
    upgradeAccess
        ((assignBrowser initialServerState "sess_1" "client-abcdefgh" "ck1" "ut1" 1000).2)
        "/browser/1/websockify" (some "ck1") none = UpgradeOutcome.tunnel 1 false
    ∧ upgradeAccess
        ((assignBrowser initialServerState "sess_1" "client-abcdefgh" "ck1" "ut1" 1000).2)
        "/browser/1/websockify" none none = UpgradeOutcome.denied := by
  have h := upgradeAccess_cookie_check
    ((assignBrowser initialServerState "sess_1" "client-abcdefgh" "ck1" "ut1" 1000).2)
    "/browser/1/websockify" 1 "/websockify"
    (Browser.mk 1 "localhost" 6901 4901 true (some 1000) (some 1000)
      (some "sess_1") (some "sess_1") (some "client-abcdefgh"))
    (some "ck1") none (by decide) (by decide)
  have h2 := upgradeAccess_cookie_check
    ((assignBrowser initialServerState "sess_1" "client-abcdefgh" "ck1" "ut1" 1000).2)
    "/browser/1/websockify" 1 "/websockify"
    (Browser.mk 1 "localhost" 6901 4901 true (some 1000) (some 1000)
      (some "sess_1") (some "sess_1") (some "client-abcdefgh"))
    none none (by decide) (by decide)
  exact ⟨(h.1 (by decide)).mpr (by decide), h2.2.1 (by decide) (by decide)⟩

/-! ### C1: single use of URL tokens across arbitrary traces -/

theorem syncBrowserToFirebase_urlTokens (s : ServerState) (i : Nat) :
    (syncBrowserToFirebase s i).urlTokens = s.urlTokens := by
  obtain ⟨m, hm⟩ := syncBrowserToFirebase_state s i
  rw [hm]

theorem createSessionTokens_urlTokens (s : ServerState) (bid : Nat) (ck ut : String)
    (n : Nat) : (createSessionTokens s bid ck ut n).urlTokens
      = mapSet s.urlTokens ut (TokenEntry.mk bid ck n) := by
  unfold createSessionTokens
  cases mapGet s.browserTokens bid <;> rfl

theorem createUrlToken_urlTokens_none (s : ServerState) (bid : Nat) (ut : String)
    (n : Nat) (t : String) (h : mapGet s.urlTokens t = none) (hne : ¬(t = ut)) :
    mapGet ((createUrlToken s bid ut n).2).urlTokens t = none := by
  unfold createUrlToken
  rcases hck : mapGet s.browserTokens bid with _ | ck0
  · exact h
  · exact mapGet_mapSet_of_none _ _ _ _ h hne

theorem assignBrowser_urlTokens_none (s : ServerState) (sid c ck ut : String) (n : Nat)
    (t : String) (h : mapGet s.urlTokens t = none) (hne : ¬(t = ut)) :
    mapGet ((assignBrowser s sid c ck ut n).2).urlTokens t = none := by
  have hsAfact := findBrowserByClientId_state s c
  rcases hfind : findBrowserByClientId s c with ⟨ob, sA⟩
  rw [hfind] at hsAfact
  obtain ⟨csA, hsA0⟩ := hsAfact
  have hsA : sA = { s with clientSessions := csA } := hsA0
  have hsAu : sA.urlTokens = s.urlTokens := by rw [hsA]
  unfold assignBrowser
  rw [hfind]
  rcases ob with _ | b
  · rcases hav : findAvailableBrowser sA with _ | b
    · simp only [hav]
      rw [hsAu]
      exact h
    · simp only [hav]
      split
      all_goals {
        rw [syncBrowserToFirebase_urlTokens, createSessionTokens_urlTokens]
        apply mapGet_mapSet_of_none _ _ _ _ _ hne
        rw [updateBrowser_urlTokens, hsAu]
        exact h
      }
  · simp only [syncBrowserToFirebase_browserTokens, updateBrowser_browserTokens]
    rcases hck0 : mapGet sA.browserTokens b.id with _ | ck0 <;> simp only [hck0]
    · show mapGet ((createUrlToken _ b.id ut n).2).urlTokens t = none
      apply createUrlToken_urlTokens_none _ _ _ _ _ _ hne
      simp only [syncBrowserToFirebase_urlTokens, updateBrowser_urlTokens, hsAu]
      exact h
    · show mapGet ((createUrlToken _ b.id ut n).2).urlTokens t = none
      apply createUrlToken_urlTokens_none _ _ _ _ _ _ hne
      simp only [syncBrowserToFirebase_urlTokens, updateBrowser_urlTokens, hsAu]
      exact h

theorem doReleaseBrowser_urlTokens_none (s : ServerState) (bid : Nat) (t : String)
    (h : mapGet s.urlTokens t = none) :
    mapGet (doReleaseBrowser s bid).urlTokens t = none := by
  unfold doReleaseBrowser
  rcases getBrowserById s bid with _ | b
  · exact h
  · simp only []
    by_cases hin : b.inUse = true
    · rw [if_neg (by simp [hin])]
      rcases hcid : b.clientId with _ | cid <;> simp only [hcid] <;>
        rcases hbt : mapGet s.browserTokens b.id with _ | old <;> simp only [hbt] <;>
        · simp only [syncBrowserToFirebase_urlTokens, updateBrowser_urlTokens]
          exact mapGet_filter_of_none _ _ _ h
    · have hinf : b.inUse = false := by revert hin; cases b.inUse <;> simp
      rw [if_pos (by simp [hinf])]
      exact h

theorem createUrlToken_browsers (s : ServerState) (bid : Nat) (ut : String) (n : Nat) :
    ((createUrlToken s bid ut n).2).browsers = s.browsers := by
  unfold createUrlToken
  cases mapGet s.browserTokens bid <;> rfl

theorem createUrlToken_urlTokensEq (s : ServerState) (bid : Nat) (ut : String) (n : Nat) :
    ((createUrlToken s bid ut n).2).urlTokens = s.urlTokens
    ∨ ∃ e, ((createUrlToken s bid ut n).2).urlTokens = mapSet s.urlTokens ut e := by
  unfold createUrlToken
  rcases mapGet s.browserTokens bid with _ | ck0
  · exact Or.inl rfl
  · exact Or.inr ⟨TokenEntry.mk bid ck0 n, rfl⟩

theorem checkSession_urlTokens_none (s : ServerState) (c ck ut : String) (n : Nat)
    (t : String) (h : mapGet s.urlTokens t = none) (hne : ¬(t = ut)) :
    mapGet ((checkSession s c ck ut n).2).urlTokens t = none := by
  have hsAfact := findBrowserByClientId_state s c
  rcases hfind : findBrowserByClientId s c with ⟨ob, sA⟩
  rw [hfind] at hsAfact
  obtain ⟨csA, hsA0⟩ := hsAfact
  have hsA : sA = { s with clientSessions := csA } := hsA0
  have hsAu : sA.urlTokens = s.urlTokens := by rw [hsA]
  unfold checkSession
  rw [hfind]
  rcases ob with _ | b
  · show mapGet sA.urlTokens t = none
    rw [hsAu]
    exact h
  · simp only []
    split
    · rcases hbt : mapGet sA.browserTokens b.id with _ | ck0 <;> simp only [hbt] <;>
      · show mapGet ((createUrlToken _ b.id ut n).2).urlTokens t = none
        apply createUrlToken_urlTokens_none _ _ _ _ _ _ hne
        simp only [hsAu]
        exact h
    · show mapGet (doReleaseBrowser sA b.id).urlTokens t = none
      apply doReleaseBrowser_urlTokens_none
      rw [hsAu]
      exact h

theorem browserHttpAccess_urlTokens_none (s : ServerState) (p : String)
    (c q : Option String) (t : String) (h : mapGet s.urlTokens t = none) :
    mapGet ((browserHttpAccess s p c q).2).urlTokens t = none := by
  unfold browserHttpAccess
  rcases parseBrowserPath p with _ | ⟨bid, rest⟩
  · exact h
  · simp only []
    rcases getBrowserById s bid with _ | b
    · exact h
    · simp only []
      by_cases hv : validateBrowserAccess s c b.id = true
      · rw [if_pos hv]
        exact h
      · rw [if_neg hv]
        rcases q with _ | qt
        · exact h
        · simp only []
          rcases mapGet s.urlTokens qt with _ | e
          · exact h
          · simp only []
            by_cases he : e.browserId = b.id
            · rw [if_pos he]
              exact mapGet_mapDel_of_none _ _ _ h
            · rw [if_neg he]
              exact h

theorem heartbeatByBrowserId_urlTokens (s : ServerState) (bid n : Nat) (sy : Bool) :
    (heartbeatByBrowserId s bid n sy).urlTokens = s.urlTokens := by
  unfold heartbeatByBrowserId
  rcases getBrowserById s bid with _ | b
  · rfl
  · simp only []
    by_cases hin : b.inUse = true
    · rw [if_pos hin]
      rcases sy with _ | _
      · rw [if_neg (by simp)]
        simp only [updateBrowser_urlTokens]
      · rw [if_pos rfl, syncBrowserToFirebase_urlTokens]
        simp only [updateBrowser_urlTokens]
    · rw [if_neg hin]

theorem trackWsConnect_urlTokens (s : ServerState) (bid n : Nat) :
    (trackWsConnect s bid n).urlTokens = s.urlTokens := by
  unfold trackWsConnect
  simp only []
  split
  · split
    · simp only [updateBrowser_urlTokens]
    · rfl
  · rfl

theorem trackWsDisconnect_urlTokens (s : ServerState) (bid n : Nat) :
    (trackWsDisconnect s bid n).urlTokens = s.urlTokens := by
  unfold trackWsDisconnect
  rcases mapGet s.activeConnections bid with _ | conn <;> rfl

theorem cleanupOneSlot_urlTokens_none (now : Nat) (s : ServerState) (bid : Nat)
    (t : String) (h : mapGet s.urlTokens t = none) :
    mapGet (cleanupOneSlot now s bid).urlTokens t = none := by
  unfold cleanupOneSlot
  rcases getBrowserById s bid with _ | b
  · exact h
  · simp only []
    split
    · exact h
    · split
      · exact doReleaseBrowser_urlTokens_none s bid t h
      · split
        · split
          · exact doReleaseBrowser_urlTokens_none s bid t h
          · exact h
        · exact h

theorem cleanupSessions_urlTokens_none_aux (now : Nat) (t : String) :
    ∀ (ids : List Nat) (s : ServerState), mapGet s.urlTokens t = none →
    mapGet (ids.foldl (cleanupOneSlot now) s).urlTokens t = none
  | [], _, h => h
  | i :: rest, s, h =>
    cleanupSessions_urlTokens_none_aux now t rest (cleanupOneSlot now s i)
      (cleanupOneSlot_urlTokens_none now s i t h)

theorem cleanupSessions_urlTokens_none (s : ServerState) (now : Nat) (t : String)
    (h : mapGet s.urlTokens t = none) :
    mapGet (cleanupSessions s now).urlTokens t = none := by
  unfold cleanupSessions
  exact cleanupSessions_urlTokens_none_aux now t _ s h

theorem releaseByClientId_urlTokens_none (s : ServerState) (c : String) (t : String)
    (h : mapGet s.urlTokens t = none) :
    mapGet ((releaseByClientId s c).urlTokens) t = none := by
  have hsAfact := findBrowserByClientId_state s c
  rcases hfind : findBrowserByClientId s c with ⟨ob, sA⟩
  rw [hfind] at hsAfact
  obtain ⟨csA, hsA0⟩ := hsAfact
  have hsA : sA = { s with clientSessions := csA } := hsA0
  have hsAu : sA.urlTokens = s.urlTokens := by rw [hsA]
  unfold releaseByClientId
  rw [hfind]
  rcases ob with _ | b
  · show mapGet sA.urlTokens t = none
    rw [hsAu]
    exact h
  · show mapGet (doReleaseBrowser sA b.id).urlTokens t = none
    apply doReleaseBrowser_urlTokens_none
    rw [hsAu]
    exact h

theorem releaseByBrowserId_urlTokens_none (s : ServerState) (bid : Nat) (t : String)
    (h : mapGet s.urlTokens t = none) :
    mapGet ((releaseByBrowserId s bid).urlTokens) t = none := by
  unfold releaseByBrowserId
  rcases getBrowserById s bid with _ | b
  · exact h
  · simp only []
    by_cases hin : b.inUse = true
    · rw [if_pos hin]
      exact doReleaseBrowser_urlTokens_none s bid t h
    · rw [if_neg hin]
      exact h

/-- One step of any server event keeps an absent URL token absent, provided the
event does not mint that very token. -/
theorem stepOp_urlTokens_none (s : ServerState) (op : Op) (t : String)
    (h : mapGet s.urlTokens t = none)
    (hmint : ∀ u ∈ mintedUrlTokens op, ¬(t = u)) :
    mapGet (stepOp s op).urlTokens t = none := by
  cases op with
  | requestBrowser sid cid ck ut n =>
    exact assignBrowser_urlTokens_none s sid cid ck ut n t h
      (hmint ut (by simp [mintedUrlTokens]))
  | checkSessionOp cid ck ut n =>
    exact checkSession_urlTokens_none s cid ck ut n t h
      (hmint ut (by simp [mintedUrlTokens]))
  | httpAccess p c q => exact browserHttpAccess_urlTokens_none s p c q t h
  | heartbeat bid n sy => rw [stepOp, heartbeatByBrowserId_urlTokens]; exact h
  | releaseClient c => exact releaseByClientId_urlTokens_none s c t h
  | releaseBrowser bid => exact releaseByBrowserId_urlTokens_none s bid t h
  | wsConnect bid n => rw [stepOp, trackWsConnect_urlTokens]; exact h
  | wsDisconnect bid n => rw [stepOp, trackWsDisconnect_urlTokens]; exact h
  | gcUrlTokens n => exact mapGet_filter_of_none _ _ _ h
  | reaper n => exact cleanupSessions_urlTokens_none s n t h

/-- Along any trace of server events none of which mints the token, an absent
URL token stays absent. -/
theorem runOps_urlTokens_none (ops : List Op) : ∀ (s : ServerState) (t : String),
    mapGet s.urlTokens t = none →
    (∀ op ∈ ops, ∀ u ∈ mintedUrlTokens op, ¬(t = u)) →
    mapGet (runOps s ops).urlTokens t = none := by
  induction ops with
  | nil => exact fun s t h _ => h
  | cons op rest ih =>
    intro s t h hmint
    exact ih (stepOp s op) t
      (stepOp_urlTokens_none s op t h (hmint op (List.mem_cons_self op rest)))
      (fun o ho => hmint o (List.mem_cons_of_mem op ho))

theorem browserHttpAccess_token_grant (s : ServerState) (p : String) (c : Option String)
    (t : String) (i : Nat) (rest : String) (b : Browser) (e : TokenEntry)
    (hp : parseBrowserPath p = some (i, rest))
    (hb : getBrowserById s i = some b)
    (hv : ¬(validateBrowserAccess s c b.id = true))
    (ht : mapGet s.urlTokens t = some e)
    (he : e.browserId = b.id) :
    browserHttpAccess s p c (some t)
      = (AccessOutcome.granted (some e.cookieToken),
         { s with urlTokens := mapDel s.urlTokens t }) := by
  unfold browserHttpAccess
  simp only [hp, hb, ht]
  rw [if_neg hv, if_pos he]

theorem browserHttpAccess_denied_of_absent (s : ServerState) (p : String)
    (c : Option String) (t : String) (i : Nat) (rest : String) (b : Browser)
    (hp : parseBrowserPath p = some (i, rest))
    (hb : getBrowserById s i = some b)
    (hv : ¬(validateBrowserAccess s c b.id = true))
    (ht : mapGet s.urlTokens t = none) :
    (browserHttpAccess s p c (some t)).1 = AccessOutcome.denied := by
  unfold browserHttpAccess
  simp only [hp, hb, ht]
  rw [if_neg hv]

/-- **C1.** A `url_token` grants access exactly once. The first request on the
token's slot path with a non-validating cookie is granted together with a
`Set-Cookie` of the partner `cookie_token`, and the token is deleted from the
`urlTokens` map in the same step. Afterwards, along any trace of server events
(new session grants, session checks, HTTP accesses, heartbeats, releases,
WebSocket connect/disconnect, token GC, the reaper) in which no event mints
that same token string again, any request presenting the same token with a
non-validating cookie is answered 403. -/
theorem urlToken_single_use (s : ServerState) (p : String) (c : Option String)
    (t : String) (i : Nat) (rest : String) (b : Browser) (e : TokenEntry)
    (hp : parseBrowserPath p = some (i, rest))
    (hb : getBrowserById s i = some b)
    (hv : ¬(validateBrowserAccess s c b.id = true))
    (ht : mapGet s.urlTokens t = some e)
    (he : e.browserId = b.id) :
    browserHttpAccess s p c (some t)
      = (AccessOutcome.granted (some e.cookieToken),
         { s with urlTokens := mapDel s.urlTokens t })
    ∧ ∀ (ops : List Op) (p2 : String) (c2 : Option String) (i2 : Nat)
        (rest2 : String) (b2 : Browser),
        (∀ op ∈ ops, ∀ u ∈ mintedUrlTokens op, ¬(t = u)) →
        parseBrowserPath p2 = some (i2, rest2) →
        getBrowserById (runOps { s with urlTokens := mapDel s.urlTokens t } ops) i2 = some b2 →
        ¬(validateBrowserAccess (runOps { s with urlTokens := mapDel s.urlTokens t } ops) c2 b2.id = true) →
        (browserHttpAccess (runOps { s with urlTokens := mapDel s.urlTokens t } ops) p2 c2 (some t)).1
          = AccessOutcome.denied := by
  refine ⟨browserHttpAccess_token_grant s p c t i rest b e hp hb hv ht he, ?_⟩
  intro ops p2 c2 i2 rest2 b2 hmint hp2 hb2 hv2
  apply browserHttpAccess_denied_of_absent _ _ _ _ _ _ _ hp2 hb2 hv2
  apply runOps_urlTokens_none ops _ t _ hmint
  exact mapGet_mapDel_self s.urlTokens t

/-- Witness for C1: in a concrete two-step run the freshly minted token grants
once with the partner cookie and, after an intervening heartbeat, the same
token is denied. -/
theorem urlToken_single_use_witness :
    browserHttpAccess
        ((assignBrowser initialServerState "sess_1" "client-abcdefgh" "ck1" "ut1" 1000).2)
        "/browser/1/" none (some "ut1")
      = (AccessOutcome.granted (some "ck1"),
         { (assignBrowser initialServerState "sess_1" "client-abcdefgh" "ck1" "ut1" 1000).2 with
            urlTokens := mapDel ((assignBrowser initialServerState "sess_1" "client-abcdefgh" "ck1" "ut1" 1000).2).urlTokens "ut1" })
    ∧ (browserHttpAccess
        (runOps
          { (assignBrowser initialServerState "sess_1" "client-abcdefgh" "ck1" "ut1" 1000).2 with
             urlTokens := mapDel ((assignBrowser initialServerState "sess_1" "client-abcdefgh" "ck1" "ut1" 1000).2).urlTokens "ut1" }
          [Op.heartbeat 1 2000 false])
        "/browser/1/" none (some "ut1")).1 = AccessOutcome.denied := by
  have h := urlToken_single_use
    ((assignBrowser initialServerState "sess_1" "client-abcdefgh" "ck1" "ut1" 1000).2)
    "/browser/1/" none "ut1" 1 "/"
    (Browser.mk 1 "localhost" 6901 4901 true (some 1000) (some 1000)
      (some "sess_1") (some "sess_1") (some "client-abcdefgh"))
    (TokenEntry.mk 1 "ck1" 1000)
    (by decide) (by decide) (by decide) (by decide) (by decide)
  refine ⟨h.1, ?_⟩
  exact h.2 [Op.heartbeat 1 2000 false] "/browser/1/" none 1 "/"
    (Browser.mk 1 "localhost" 6901 4901 true (some 1000) (some 2000)
      (some "sess_1") (some "sess_1") (some "client-abcdefgh"))
    (by decide) (by decide) (by decide) (by decide)

end Nebula
